import Mathlib

/-!
Verification of the GTask cache engine.

This file gives a shallow embedding of the task-service layer of the
GTask repository and proves properties of it.  The main subject is the
cache engine in src/tasks_tui/task_service.py (class TaskService with a
local snapshot, a dirty flag and a best-effort sync pass); the mock
variant in src/gtask_tui/task_service.py is embedded separately in the
namespace GtaskTui.

Modelling conventions:
  - Python dicts are association lists with Python insertion-order
    semantics: setting an existing key updates it in place, setting a
    fresh key appends it, pop removes it.
  - A Python string parameter that the code guards with a falsy test
    (if not list_id) is a String, with the empty string standing for
    None as well as for the empty string (both are falsy).
  - The durable store (local_storage.py) is the field stored of the
    engine state; save_local_data copies the in-memory snapshot into it
    and clears the dirty flag, which models the successful-write path
    (save_data swallows write failures; the claims concern whether the
    save is invoked at all).
  - Fallible remote calls are Option-valued fields of a Remote record;
    a call returning none models a raised exception.  Code paths where
    the Python code lets an exception propagate are modelled with an
    explicit exn constructor carrying the partially mutated state.
  - The external date parser (dateutil isoparse) is a parameter
    parse : String -> Option String returning the isoformat rendering
    of the parsed timestamp.  In the Python source the except clause
    of change_date_task reads except (isoparse.ParserError, ValueError);
    the function isoparse has no attribute ParserError, so as soon as
    the parser raises ValueError the evaluation of that except clause
    raises AttributeError, which propagates to the caller.  The
    embedding therefore maps the parse-failure path to exn.
-/

namespace GTask

/-- A task list record, from the data model in task_service.py. -/
structure TaskList where
  id : String
  title : String
  deleted : Bool := false
deriving DecidableEq

/-- A task record.  Fields absent from a Python dict are modelled with
Option (due, notes); status and title are present on every record the
code manipulates. -/
structure Task where
  id : String
  title : String
  status : String
  due : Option String := none
  notes : Option String := none
  deleted : Bool := false
deriving DecidableEq

/-- A Python dict with string keys, as an insertion-ordered association
list. -/
abbrev Dict (α : Type) : Type := List (String × α)

/-- Membership test for a dict key. -/
def dictMem {α : Type} : Dict α → String → Bool
  | [], _ => false
  | (k, _) :: rest, key => if k = key then true else dictMem rest key

/-- Lookup of a dict key. -/
def dictGet {α : Type} : Dict α → String → Option α
  | [], _ => none
  | (k, v) :: rest, key => if k = key then some v else dictGet rest key

/-- Lookup with a default, modelling d.get(key, dflt). -/
def dictGetD {α : Type} (d : Dict α) (key : String) (dflt : α) : α :=
  match dictGet d key with
  | none => dflt
  | some v => v

/-- Assignment d[key] = v: update in place when the key is present,
append otherwise. -/
def dictSet {α : Type} : Dict α → String → α → Dict α
  | [], key, v => [(key, v)]
  | (k, w) :: rest, key, v =>
    if k = key then (key, v) :: rest else (k, w) :: dictSet rest key v

/-- d.pop(key): remove the entry with the given key. -/
def dictPop {α : Type} : Dict α → String → Dict α
  | [], _ => []
  | (k, w) :: rest, key => if k = key then rest else (k, w) :: dictPop rest key

/-- The keys of a dict, in order. -/
def dictKeys {α : Type} (d : Dict α) : List String :=
  d.map (fun kv => kv.1)

/-- The string-prefix test of the Python sources (str.startswith),
defined over the character list so that concrete instances evaluate
(the core String.startsWith goes through well-founded recursion the
kernel does not unfold). -/
def strStartsWith (s p : String) : Bool :=
  p.data.isPrefixOf s.data

/-- The snapshot: the unit of persistence, a sequence of task lists and
a dict from list identifier to task sequence
(self.data in task_service.py). -/
structure Snapshot where
  task_lists : List TaskList
  tasks : Dict (List Task)
deriving DecidableEq

/-- The engine state: the in-memory snapshot, the dirty flag, the
active-list pointer and the current durable-store content. -/
structure State where
  data : Snapshot
  dirty : Bool
  active_list_id : String
  stored : Snapshot
deriving DecidableEq

/-- save_local_data: write the snapshot to the durable store and clear
the dirty flag. -/
def save_local_data (s : State) : State :=
  { s with stored := s.data, dirty := false }

/-- get_task_lists: all lists whose deleted flag is not set. -/
def get_task_lists (s : State) : List TaskList :=
  s.data.task_lists.filter (fun l => !l.deleted)

/-- get_tasks_for_list: all tasks of the given list (defaulting to the
active list) whose deleted flag is not set. -/
def get_tasks_for_list (list_id : String) (s : State) : List Task :=
  let lid := if list_id = "" then s.active_list_id else list_id
  if lid = "" then []
  else (dictGetD s.data.tasks lid []).filter (fun t => !t.deleted)

/-- Scan a task sequence for the first task with the given id
(the shared loop shape of get_task and the per-task mutators). -/
def findTask (task_id : String) : List Task → Option Task
  | [] => none
  | t :: rest => if t.id = task_id then some t else findTask task_id rest

/-- Apply f to the first task with the given id, returning the new
sequence and the updated record, or none when no task matches. -/
def updateFirstTask (f : Task → Task) (task_id : String) :
    List Task → Option (List Task × Task)
  | [] => none
  | t :: rest =>
    if t.id = task_id then some (f t :: rest, f t)
    else
      match updateFirstTask f task_id rest with
      | none => none
      | some (ts, u) => some (t :: ts, u)

/-- get_task: linear scan of the list bucket, with no tombstone
filtering. -/
def get_task (list_id task_id : String) (s : State) : Option Task :=
  if list_id = "" then none
  else findTask task_id (dictGetD s.data.tasks list_id [])

/-- add_task: append a task with a fresh provisional identifier derived
from the clock value now, creating the bucket when absent. -/
def add_task (list_id title : String) (now : Nat) (s : State) :
    Option Task × State :=
  if list_id = "" then (none, s)
  else
    let temp_id := "temp_" ++ toString now
    let task : Task :=
      { id := temp_id, title := title, status := "needsAction" }
    let d0 :=
      if dictMem s.data.tasks list_id then s.data.tasks
      else dictSet s.data.tasks list_id []
    let d1 := dictSet d0 list_id (dictGetD d0 list_id [] ++ [task])
    (some task,
      { s with data := { s.data with tasks := d1 }, dirty := true })

/-- The status flip of toggle_task_status. -/
def toggleStatus (t : Task) : Task :=
  { t with status := if t.status = "needsAction" then "completed" else "needsAction" }

/-- toggle_task_status: flip the status of the first matching task. -/
def toggle_task_status (list_id task_id : String) (s : State) :
    Option Task × State :=
  if list_id = "" then (none, s)
  else
    match updateFirstTask toggleStatus task_id (dictGetD s.data.tasks list_id []) with
    | none => (none, s)
    | some (ts, u) =>
      (some u,
        { s with data := { s.data with tasks := dictSet s.data.tasks list_id ts },
                 dirty := true })

/-- delete_task: set the deleted flag of the first matching task
(a tombstone; the record is kept). -/
def delete_task (list_id task_id : String) (s : State) :
    Option Bool × State :=
  if list_id = "" then (none, s)
  else
    match updateFirstTask (fun t => { t with deleted := true }) task_id
        (dictGetD s.data.tasks list_id []) with
    | none => (some false, s)
    | some (ts, _) =>
      (some true,
        { s with data := { s.data with tasks := dictSet s.data.tasks list_id ts },
                 dirty := true })

/-- rename_task: set the title of the first matching task. -/
def rename_task (list_id task_id new_name : String) (s : State) :
    Option Task × State :=
  if list_id = "" then (none, s)
  else
    match updateFirstTask (fun t => { t with title := new_name }) task_id
        (dictGetD s.data.tasks list_id []) with
    | none => (none, s)
    | some (ts, u) =>
      (some u,
        { s with data := { s.data with tasks := dictSet s.data.tasks list_id ts },
                 dirty := true })

/-- The result of an operation that can let a Python exception
propagate: a value and a state on normal return, or the state at the
point where the exception escapes. -/
inductive OpResult where
  | ok (t : Option Task) (s : State)
  | exn (s : State)
deriving DecidableEq

/-- change_date_task: parse the date string; on success set the due
field of the first matching task to the isoformat rendering plus Z.
On parse failure the Python except clause evaluates
isoparse.ParserError, an attribute that does not exist, so an
AttributeError propagates: the parse-failure path is exn, with the
state unchanged. -/
def change_date_task (parse : String → Option String)
    (list_id task_id date_str : String) (s : State) : OpResult :=
  if list_id = "" then .ok none s
  else
    match parse date_str with
    | none => .exn s
    | some iso =>
      let due_date := iso ++ "Z"
      match updateFirstTask (fun t => { t with due := some due_date }) task_id
          (dictGetD s.data.tasks list_id []) with
      | none => .ok none s
      | some (ts, u) =>
        .ok (some u)
          { s with data := { s.data with tasks := dictSet s.data.tasks list_id ts },
                   dirty := true }

/-- change_detail_task: set the notes of the first matching task. -/
def change_detail_task (list_id task_id detail : String) (s : State) :
    Option Task × State :=
  if list_id = "" then (none, s)
  else
    match updateFirstTask (fun t => { t with notes := some detail }) task_id
        (dictGetD s.data.tasks list_id []) with
    | none => (none, s)
    | some (ts, u) =>
      (some u,
        { s with data := { s.data with tasks := dictSet s.data.tasks list_id ts },
                 dirty := true })

/-- set_active_list: move the in-memory pointer only; no validation, no
dirty marking. -/
def set_active_list (list_id : String) (s : State) : Bool × State :=
  (true, { s with active_list_id := list_id })

/-- add_list: append a list with a fresh provisional identifier and
create its empty task bucket. -/
def add_list (list_name : String) (now : Nat) (s : State) :
    TaskList × State :=
  let temp_id := "temp_list_" ++ toString now
  let list_body : TaskList := { id := temp_id, title := list_name }
  (list_body,
    { s with
        data := { task_lists := s.data.task_lists ++ [list_body],
                  tasks := dictSet s.data.tasks temp_id [] },
        dirty := true })

/-- Apply f to the first task list with the given id. -/
def updateFirstList (f : TaskList → TaskList) (list_id : String) :
    List TaskList → Option (List TaskList)
  | [] => none
  | l :: rest =>
    if l.id = list_id then some (f l :: rest)
    else
      match updateFirstList f list_id rest with
      | none => none
      | some ls => some (l :: ls)

/-- delete_list: set the deleted flag of the matching list (tombstone);
returns a plain success boolean. -/
def delete_list (list_id : String) (s : State) : Bool × State :=
  match updateFirstList (fun l => { l with deleted := true }) list_id
      s.data.task_lists with
  | none => (false, s)
  | some ls =>
    (true, { s with data := { s.data with task_lists := ls }, dirty := true })

/-- rename_list: set the title of the matching list; returns some true
on success and none both on a falsy list id and on no match. -/
def rename_list (list_id new_title : String) (s : State) :
    Option Bool × State :=
  if list_id = "" then (none, s)
  else
    match updateFirstList (fun l => { l with title := new_title }) list_id
        s.data.task_lists with
    | none => (none, s)
    | some ls =>
      (some true,
        { s with data := { s.data with task_lists := ls }, dirty := true })

/-- The remote service surface used by the sync passes.  Every call is
fallible: none models a raised exception.  The delete calls return
Option Unit; their outcome is discarded by the code (the calls sit in a
try block whose except clause is pass). -/
structure Remote where
  listLists : Option (List TaskList)
  listTasks : String → Option (List Task)
  deleteList : String → Option Unit
  insertList : String → Option TaskList
  deleteTask : String → String → Option Unit
  insertTask : String → String → Option String → Option String → Option Task
  getTask : String → String → Option Task
  updateTask : String → String → Task → Option Task

/-- Result of the list passes of sync_to_google: the processed list
sequence, plus the provisional-to-remote id map on normal completion.
exn carries the partially processed sequence at the point where an
uncaught insert failure escapes. -/
inductive LRes where
  | ok (lists : List TaskList) (idMap : Dict String)
  | exn (lists : List TaskList)
deriving DecidableEq

/-- Passes 1 and 2 of sync_to_google over self.data.task_lists, with
the id map accumulated like the Python dict new_list_id_map.
A tombstoned list with a remote id gets a best-effort remote delete
whose outcome is ignored; a provisional non-tombstoned list is created
remotely, the insert being outside any try block, so its failure
aborts the pass. -/
def syncLists (r : Remote) (m : Dict String) :
    List TaskList → LRes
  | [] => .ok [] m
  | tl :: rest =>
    if tl.deleted then
      -- try: remote delete when the id is remote; except: pass
      let _ := if !(strStartsWith tl.id "temp_list_") then r.deleteList tl.id else none
      match syncLists r m rest with
      | .ok ls m2 => .ok (tl :: ls) m2
      | .exn ls => .exn (tl :: ls)
    else if strStartsWith tl.id "temp_list_" then
      match r.insertList tl.title with
      | none => .exn (tl :: rest)
      | some nl =>
        match syncLists r (dictSet m tl.id nl.id) rest with
        | .ok ls m2 => .ok (nl :: ls) m2
        | .exn ls => .exn (nl :: ls)
    else
      match syncLists r m rest with
      | .ok ls m2 => .ok (tl :: ls) m2
      | .exn ls => .exn (tl :: ls)

/-- Pass 3: for each provisional-to-remote pair, move the task bucket
from the old key to the new key (tasks[new] = tasks.pop(old)). -/
def rekey : Dict String → Dict (List Task) → Dict (List Task)
  | [], d => d
  | (old, new) :: rest, d =>
    rekey rest
      (if dictMem d old then dictSet (dictPop d old) new (dictGetD d old [])
       else d)

/-- The fetch-compare-update step of pass 4 for a task with a remote
identifier that is not tombstoned.  Both the fetch and the update sit
in one try block, so a failure of either leaves the record unchanged. -/
def updateStep (r : Remote) (list_id : String) (t : Task) : Task :=
  match r.getTask list_id t.id with
  | none => t
  | some g =>
    if g.title ≠ t.title ∨ g.status ≠ t.status ∨ g.due ≠ t.due ∨ g.notes ≠ t.notes then
      match r.updateTask list_id t.id t with
      | none => t
      | some ut => ut
    else t

/-- The per-task transformation of pass 4 on the no-abort path:
tombstones are kept, provisional tasks are replaced by the created
server record, remote tasks go through the fetch-compare-update step. -/
def taskStep (r : Remote) (list_id : String) (t : Task) : Task :=
  if t.deleted then t
  else if strStartsWith t.id "temp_" then
    match r.insertTask list_id t.title t.due t.notes with
    | none => t
    | some nt => nt
  else updateStep r list_id t

/-- Result of pass 4 over one task bucket; exn carries the partially
processed bucket when an uncaught task-insert failure escapes. -/
inductive TRes where
  | ok (ts : List Task)
  | exn (ts : List Task)
deriving DecidableEq

/-- Pass 4 over one bucket.  The remote delete of a tombstoned
remote-id task and the fetch-compare-update of a remote-id task are
inside try blocks; the create of a provisional task is not, so its
failure aborts the pass. -/
def syncTasks (r : Remote) (list_id : String) : List Task → TRes
  | [] => .ok []
  | t :: rest =>
    if t.deleted then
      -- try: remote delete when the id is remote; except: pass
      let _ := if !(strStartsWith t.id "temp_") then r.deleteTask list_id t.id else none
      match syncTasks r list_id rest with
      | .ok ts => .ok (t :: ts)
      | .exn ts => .exn (t :: ts)
    else if strStartsWith t.id "temp_" then
      match r.insertTask list_id t.title t.due t.notes with
      | none => .exn (t :: rest)
      | some nt =>
        match syncTasks r list_id rest with
        | .ok ts => .ok (nt :: ts)
        | .exn ts => .exn (nt :: ts)
    else
      let u := updateStep r list_id t
      match syncTasks r list_id rest with
      | .ok ts => .ok (u :: ts)
      | .exn ts => .exn (u :: ts)

/-- Result of pass 4 over the whole tasks dict. -/
inductive DRes where
  | ok (d : Dict (List Task))
  | exn (d : Dict (List Task))
deriving DecidableEq

/-- Pass 4 over self.data.tasks: buckets still keyed by a provisional
list identifier are skipped. -/
def syncBuckets (r : Remote) : Dict (List Task) → DRes
  | [] => .ok []
  | (k, ts) :: rest =>
    if strStartsWith k "temp_list_" then
      match syncBuckets r rest with
      | .ok d => .ok ((k, ts) :: d)
      | .exn d => .exn ((k, ts) :: d)
    else
      match syncTasks r k ts with
      | .exn ts2 => .exn ((k, ts2) :: rest)
      | .ok ts2 =>
        match syncBuckets r rest with
        | .ok d => .ok ((k, ts2) :: d)
        | .exn d => .exn ((k, ts2) :: d)

/-- Result of an engine entry point that returns no value: the state on
normal return, or the state at the point where an exception escapes. -/
inductive EngineResult where
  | ok (s : State)
  | exn (s : State)
deriving DecidableEq

/-- sync_to_google: no-op when the dirty flag is clear; otherwise the
four reconciliation passes followed by save_local_data.  An uncaught
remote-create failure escapes as exn with the snapshot mutated up to
that point and nothing persisted. -/
def sync_to_google (r : Remote) (s : State) : EngineResult :=
  if s.dirty = false then .ok s
  else
    match syncLists r [] s.data.task_lists with
    | .exn ls => .exn { s with data := { s.data with task_lists := ls } }
    | .ok ls m =>
      let d := rekey m s.data.tasks
      match syncBuckets r d with
      | .exn d2 => .exn { s with data := { task_lists := ls, tasks := d2 } }
      | .ok d2 =>
        .ok (save_local_data { s with data := { task_lists := ls, tasks := d2 } })

/-- The bucket-filling loop of sync_from_google; the boolean records
whether a list-tasks call raised, aborting the loop. -/
def fetchBuckets (r : Remote) (d : Dict (List Task)) :
    List TaskList → Dict (List Task) × Bool
  | [] => (d, false)
  | l :: rest =>
    match r.listTasks l.id with
    | none => (d, true)
    | some ts => fetchBuckets r (dictSet d l.id ts) rest

/-- sync_from_google: full pull of all lists and their tasks, then
save_local_data.  A failed remote call escapes with the snapshot
partially overwritten. -/
def sync_from_google (r : Remote) (s : State) : EngineResult :=
  match r.listLists with
  | none => .exn s
  | some ls =>
    match fetchBuckets r [] ls with
    | (d, true) => .exn { s with data := { task_lists := ls, tasks := d } }
    | (d, false) =>
      .ok (save_local_data { s with data := { task_lists := ls, tasks := d } })

/-- The id of the first task list, or the empty string for None. -/
def get_default_task_list_id (data : Snapshot) : String :=
  match data.task_lists with
  | [] => ""
  | l :: _ => l.id

/-- TaskService construction: load the snapshot from the durable store
(the loaded argument; a missing or corrupt file loads as the empty
snapshot), clear dirty, pull from the remote when there are no lists,
then select the first list as active. -/
def TaskService.init (r : Remote) (loaded : Snapshot) : EngineResult :=
  let s0 : State :=
    { data := loaded, dirty := false, active_list_id := "", stored := loaded }
  if loaded.task_lists.isEmpty then
    match sync_from_google r s0 with
    | .exn s => .exn s
    | .ok s => .ok { s with active_list_id := get_default_task_list_id s.data }
  else .ok { s0 with active_list_id := get_default_task_list_id s0.data }

/-- Whether an engine entry point returned normally. -/
def EngineResult.isOk : EngineResult → Bool
  | .ok _ => true
  | .exn _ => false

/-- The state carried by an engine result, whether returned or left
behind by an escaping exception. -/
def EngineResult.state : EngineResult → State
  | .ok s => s
  | .exn s => s

/-- The state carried by an operation result. -/
def OpResult.state : OpResult → State
  | .ok _ s => s
  | .exn s => s

/-- Scan a list sequence for the first list with the given id. -/
def findList (list_id : String) : List TaskList → Option TaskList
  | [] => none
  | l :: rest => if l.id = list_id then some l else findList list_id rest

/-- The total companion of updateFirstTask: replace the first matching
task, leaving the sequence unchanged when nothing matches. -/
def replaceFirstTask (f : Task → Task) (task_id : String) :
    List Task → List Task
  | [] => []
  | t :: rest =>
    if t.id = task_id then f t :: rest
    else t :: replaceFirstTask f task_id rest

/-- The total companion of updateFirstList. -/
def replaceFirstList (f : TaskList → TaskList) (list_id : String) :
    List TaskList → List TaskList
  | [] => []
  | l :: rest =>
    if l.id = list_id then f l :: rest
    else l :: replaceFirstList f list_id rest

/-- Whether some task in the bucket of key k carries the given id. -/
def taskIdIn (d : Dict (List Task)) (k tid : String) : Bool :=
  (dictGetD d k []).any (fun t => t.id == tid)

/-- Whether some list in the sequence carries the given id. -/
def listIdIn (ls : List TaskList) (lid : String) : Bool :=
  ls.any (fun l => l.id == lid)

/-- The referential-integrity invariant of the data model: every key of
the tasks mapping is the id of some list in task_lists. -/
def refIntegrity (snap : Snapshot) : Bool :=
  (dictKeys snap.tasks).all (fun k => listIdIn snap.task_lists k)

/-- No record removed: every task id visible in a bucket before is
still visible in that bucket after, and every list id is retained. -/
def preservesRecords (s s2 : State) : Prop :=
  (∀ k tid, taskIdIn s.data.tasks k tid = true →
      taskIdIn s2.data.tasks k tid = true) ∧
  (∀ lid, listIdIn s.data.task_lists lid = true →
      listIdIn s2.data.task_lists lid = true)

/-- The identifier the remote assigns for a list creation with the
given local record (the record id itself on a failed call). -/
def serverId (r : Remote) (l : TaskList) : String :=
  match r.insertList l.title with
  | none => l.id
  | some nl => nl.id

/-- The record a list entry becomes in pass 2 on the no-abort path. -/
def replaceL (r : Remote) (l : TaskList) : TaskList :=
  if l.deleted then l
  else if strStartsWith l.id "temp_list_" then
    match r.insertList l.title with
    | none => l
    | some nl => nl
  else l

/-- The id map accumulated by pass 2 across a list sequence. -/
def listIdMap (r : Remote) (m : Dict String) : List TaskList → Dict String
  | [] => m
  | l :: rest =>
    listIdMap r
      (if !l.deleted && strStartsWith l.id "temp_list_" then
        dictSet m l.id (serverId r l)
      else m) rest

/-- The provisional lists of a sequence: not tombstoned, provisional id. -/
def tempLists (ls : List TaskList) : List TaskList :=
  ls.filter (fun l => !l.deleted && strStartsWith l.id "temp_list_")

/-- The id pairs pass 2 records, in order. -/
def tempPairs (r : Remote) (ls : List TaskList) : Dict String :=
  (tempLists ls).map (fun l => (l.id, serverId r l))

/-- The tasks dict produced by pass 4 on the no-abort path. -/
def syncedBuckets (r : Remote) (d : Dict (List Task)) : Dict (List Task) :=
  d.map (fun kv =>
    (kv.1, if strStartsWith kv.1 "temp_list_" then kv.2
           else kv.2.map (taskStep r kv.1)))

/-- A stand-in for the external iso-date parser: the claims only need
one string that parses and one that does not. -/
def demoParse (ds : String) : Option String :=
  if ds = "2024-06-01" then some "2024-06-01T00:00:00" else none

/-- A plain remote-identified list. -/
def demoList1 : TaskList := { id := "l1", title := "My Tasks" }

/-- A plain remote-identified task. -/
def demoTask1 : Task := { id := "t1", title := "Buy milk", status := "needsAction" }

/-- A small clean snapshot. -/
def demoSnap : Snapshot :=
  { task_lists := [demoList1], tasks := [("l1", [demoTask1])] }

/-- A clean engine state over demoSnap. -/
def demoState : State :=
  { data := demoSnap, dirty := false, active_list_id := "l1", stored := demoSnap }

/-- The empty snapshot. -/
def emptySnap : Snapshot := { task_lists := [], tasks := [] }

/-- demoSnap with one local edit pending. -/
def dirtyState : State :=
  { data := demoSnap, dirty := true, active_list_id := "l1", stored := emptySnap }

/-- A remote on which every create succeeds (fresh non-provisional
identifiers), every delete succeeds, every fetch fails (the engine is
expected to swallow that), and every update echoes its body. -/
def demoRemote : Remote :=
  { listLists := some [demoList1]
    listTasks := fun _ => some []
    deleteList := fun _ => some ()
    insertList := fun title => some { id := "srvlist_" ++ title, title := title }
    deleteTask := fun _ _ => some ()
    insertTask := fun _ title due notes =>
      some { id := "SRVTASK1", title := title, status := "needsAction",
             due := due, notes := notes }
    getTask := fun _ _ => none
    updateTask := fun _ _ t => some t }

/-- A remote on which every call fails. -/
def failRemote : Remote :=
  { listLists := none
    listTasks := fun _ => none
    deleteList := fun _ => none
    insertList := fun _ => none
    deleteTask := fun _ _ => none
    insertTask := fun _ _ _ _ => none
    getTask := fun _ _ => none
    updateTask := fun _ _ _ => none }

/-- A dirty state holding one locally created list, for the sync
abort scenarios. -/
def c1state : State :=
  { data := { task_lists := [{ id := "temp_list_9", title := "Work" }],
              tasks := [("temp_list_9", [])] },
    dirty := true, active_list_id := "temp_list_9", stored := emptySnap }

/-- A task created and then deleted inside one dirty window. -/
def shipTomb : Task :=
  { id := "temp_1", title := "Ship", status := "needsAction", deleted := true }

/-- A task created inside the current dirty window. -/
def shipLive : Task :=
  { id := "temp_1", title := "Ship", status := "needsAction" }

/-- A dirty state holding a locally created list with a tombstoned
locally created task under it. -/
def c3state : State :=
  { data := { task_lists := [{ id := "temp_list_1", title := "Work" }],
              tasks := [("temp_list_1", [shipTomb])] },
    dirty := true, active_list_id := "temp_list_1", stored := emptySnap }

/-- A dirty state holding a locally created list with a live locally
created task under it. -/
def c3wstate : State :=
  { data := { task_lists := [{ id := "temp_list_1", title := "Work" }],
              tasks := [("temp_list_1", [shipLive])] },
    dirty := true, active_list_id := "temp_list_1", stored := emptySnap }

end GTask

namespace GtaskTui

/-- Result of the mock toggle in src/gtask_tui/task_service.py:
the returned task and the mutated mock dict, or a key error when the
list id is not a key of MOCK_TASKS. -/
inductive GRes where
  | ok (t : Option GTask.Task) (mock : GTask.Dict (List GTask.Task))
  | keyError
deriving DecidableEq

/-- toggle_task_status of the gtask_tui variant: completing a task also
appends a completion marker to its title, and un-completing strips
every occurrence of that marker (Python str.replace replaces all). -/
def toggle_task_status (mock : GTask.Dict (List GTask.Task))
    (list_id task_id : String) : GRes :=
  match GTask.dictGet mock list_id with
  | none => .keyError
  | some ts =>
    match GTask.updateFirstTask
        (fun t =>
          if t.status = "needsAction" then
            { t with status := "completed", title := t.title ++ " (Completed)" }
          else
            { t with status := "needsAction",
                     title := t.title.replace " (Completed)" "" })
        task_id ts with
    | none => .ok none mock
    | some (ts2, u) => .ok (some u) (GTask.dictSet mock list_id ts2)

/-- A mock task as in MOCK_TASKS of gtask_tui. -/
def gtask1 : GTask.Task :=
  { id := "g1", title := "Buy groceries", status := "needsAction" }

/-- A one-list mock dict as in gtask_tui. -/
def mockTasks : GTask.Dict (List GTask.Task) := [("list1", [gtask1])]

end GtaskTui


namespace GTask

section DictLemmas

variable {α : Type}

theorem dictGet_nil (k : String) : dictGet ([] : Dict α) k = none := rfl

theorem dictGet_cons (k1 : String) (v1 : α) (rest : Dict α) (k : String) :
    dictGet ((k1, v1) :: rest) k =
      if k1 = k then some v1 else dictGet rest k := rfl

theorem dictMem_cons (k1 : String) (v1 : α) (rest : Dict α) (k : String) :
    dictMem ((k1, v1) :: rest) k =
      if k1 = k then true else dictMem rest k := rfl

theorem dictSet_nil (k : String) (v : α) :
    dictSet ([] : Dict α) k v = [(k, v)] := rfl

theorem dictSet_cons (k1 : String) (v1 : α) (rest : Dict α) (k : String) (v : α) :
    dictSet ((k1, v1) :: rest) k v =
      if k1 = k then (k, v) :: rest else (k1, v1) :: dictSet rest k v := rfl

theorem dictPop_cons (k1 : String) (v1 : α) (rest : Dict α) (k : String) :
    dictPop ((k1, v1) :: rest) k =
      if k1 = k then rest else (k1, v1) :: dictPop rest k := rfl

theorem dictKeys_cons (k1 : String) (v1 : α) (rest : Dict α) :
    dictKeys ((k1, v1) :: rest) = k1 :: dictKeys rest := rfl

theorem dictGet_set_self (d : Dict α) (k : String) (v : α) :
    dictGet (dictSet d k v) k = some v := by
  induction d with
  | nil => simp [dictSet_nil, dictGet_cons]
  | cons kv rest ih =>
    obtain ⟨k1, v1⟩ := kv
    rw [dictSet_cons]
    by_cases h : k1 = k
    · rw [if_pos h, dictGet_cons, if_pos rfl]
    · rw [if_neg h, dictGet_cons, if_neg h, ih]

theorem dictGet_set_ne (d : Dict α) (k k2 : String) (v : α) (h : k2 ≠ k) :
    dictGet (dictSet d k v) k2 = dictGet d k2 := by
  induction d with
  | nil => rw [dictSet_nil, dictGet_cons, if_neg (Ne.symm h), dictGet_nil]
  | cons kv rest ih =>
    obtain ⟨k1, v1⟩ := kv
    rw [dictSet_cons]
    by_cases h1 : k1 = k
    · subst h1
      rw [if_pos rfl, dictGet_cons, dictGet_cons,
        if_neg (Ne.symm h), if_neg (Ne.symm h)]
    · rw [if_neg h1, dictGet_cons, dictGet_cons, ih]

theorem dictMem_eq_isSome (d : Dict α) (k : String) :
    dictMem d k = (dictGet d k).isSome := by
  induction d with
  | nil => rfl
  | cons kv rest ih =>
    obtain ⟨k1, v1⟩ := kv
    rw [dictMem_cons, dictGet_cons]
    by_cases h : k1 = k
    · rw [if_pos h, if_pos h]; rfl
    · rw [if_neg h, if_neg h, ih]

theorem dictGet_of_mem (d : Dict α) (k : String) (v0 : α)
    (h : dictMem d k = true) :
    dictGet d k = some (dictGetD d k v0) := by
  rw [dictMem_eq_isSome] at h
  unfold dictGetD
  cases hg : dictGet d k with
  | none => rw [hg] at h; simp at h
  | some v => simp

theorem dictSet_of_get (d : Dict α) (k : String) (v : α)
    (h : dictGet d k = some v) : dictSet d k v = d := by
  induction d with
  | nil => rw [dictGet_nil] at h; exact absurd h (by simp)
  | cons kv rest ih =>
    obtain ⟨k1, v1⟩ := kv
    rw [dictGet_cons] at h
    rw [dictSet_cons]
    by_cases h1 : k1 = k
    · rw [if_pos h1] at h ⊢
      obtain rfl : v1 = v := by injection h
      rw [h1]
    · rw [if_neg h1] at h ⊢
      rw [ih h]

theorem dictSet_set_same (d : Dict α) (k : String) (v w : α) :
    dictSet (dictSet d k v) k w = dictSet d k w := by
  induction d with
  | nil => rw [dictSet_nil, dictSet_cons, if_pos rfl, dictSet_nil]
  | cons kv rest ih =>
    obtain ⟨k1, v1⟩ := kv
    rw [dictSet_cons]
    by_cases h1 : k1 = k
    · rw [if_pos h1, dictSet_cons, if_pos rfl, dictSet_cons, if_pos h1]
    · rw [if_neg h1, dictSet_cons, if_neg h1, dictSet_cons, if_neg h1, ih]

theorem dictMem_iff_mem_keys (d : Dict α) (k : String) :
    dictMem d k = true ↔ k ∈ dictKeys d := by
  induction d with
  | nil => simp [dictMem, dictKeys]
  | cons kv rest ih =>
    obtain ⟨k1, v1⟩ := kv
    rw [dictMem_cons, dictKeys_cons]
    by_cases h : k1 = k
    · subst h
      simp
    · rw [if_neg h, List.mem_cons, ih]
      exact ⟨fun hh => Or.inr hh,
        fun hh => hh.resolve_left (fun e => h e.symm)⟩

theorem dictGet_pop_ne (d : Dict α) (k k2 : String) (h : k2 ≠ k) :
    dictGet (dictPop d k) k2 = dictGet d k2 := by
  induction d with
  | nil => rfl
  | cons kv rest ih =>
    obtain ⟨k1, v1⟩ := kv
    rw [dictPop_cons]
    by_cases h1 : k1 = k
    · subst h1
      rw [if_pos rfl, dictGet_cons, if_neg (Ne.symm h)]
    · rw [if_neg h1, dictGet_cons, dictGet_cons, ih]

theorem dictMem_pop_ne (d : Dict α) (k k2 : String) (h : k2 ≠ k) :
    dictMem (dictPop d k) k2 = dictMem d k2 := by
  rw [dictMem_eq_isSome, dictMem_eq_isSome, dictGet_pop_ne _ _ _ h]

theorem dictMem_pop_self (d : Dict α) (k : String)
    (hnd : (dictKeys d).Nodup) : dictMem (dictPop d k) k = false := by
  induction d with
  | nil => rfl
  | cons kv rest ih =>
    obtain ⟨k1, v1⟩ := kv
    rw [dictKeys_cons, List.nodup_cons] at hnd
    rw [dictPop_cons]
    by_cases h1 : k1 = k
    · subst h1
      rw [if_pos rfl]
      cases hm : dictMem rest k1 with
      | false => rfl
      | true => exact absurd ((dictMem_iff_mem_keys rest k1).mp hm) hnd.1
    · rw [if_neg h1, dictMem_cons, if_neg h1, ih hnd.2]

theorem dictMem_set_self (d : Dict α) (k : String) (v : α) :
    dictMem (dictSet d k v) k = true := by
  rw [dictMem_eq_isSome, dictGet_set_self]; rfl

theorem dictMem_set_ne (d : Dict α) (k k2 : String) (v : α) (h : k2 ≠ k) :
    dictMem (dictSet d k v) k2 = dictMem d k2 := by
  rw [dictMem_eq_isSome, dictMem_eq_isSome, dictGet_set_ne _ _ _ _ h]

theorem dictKeys_set_of_mem (d : Dict α) (k : String) (v : α)
    (h : dictMem d k = true) : dictKeys (dictSet d k v) = dictKeys d := by
  induction d with
  | nil => cases h
  | cons kv rest ih =>
    obtain ⟨k1, v1⟩ := kv
    rw [dictMem_cons] at h
    rw [dictSet_cons]
    by_cases h1 : k1 = k
    · rw [if_pos h1, dictKeys_cons, dictKeys_cons, h1]
    · rw [if_neg h1] at h ⊢
      rw [dictKeys_cons, dictKeys_cons, ih h]

theorem dictKeys_set_of_not_mem (d : Dict α) (k : String) (v : α)
    (h : dictMem d k = false) :
    dictKeys (dictSet d k v) = dictKeys d ++ [k] := by
  induction d with
  | nil => rfl
  | cons kv rest ih =>
    obtain ⟨k1, v1⟩ := kv
    rw [dictMem_cons] at h
    rw [dictSet_cons]
    by_cases h1 : k1 = k
    · rw [if_pos h1] at h
      cases h
    · rw [if_neg h1] at h ⊢
      rw [dictKeys_cons, dictKeys_cons, ih h, List.cons_append]

theorem dictKeys_pop_sublist (d : Dict α) (k : String) :
    (dictKeys (dictPop d k)).Sublist (dictKeys d) := by
  induction d with
  | nil => exact List.Sublist.refl _
  | cons kv rest ih =>
    obtain ⟨k1, v1⟩ := kv
    rw [dictPop_cons]
    by_cases h1 : k1 = k
    · rw [if_pos h1, dictKeys_cons]
      exact List.sublist_cons_self _ _
    · rw [if_neg h1, dictKeys_cons, dictKeys_cons]
      exact List.Sublist.cons₂ _ ih

theorem dictSet_append_of_not_mem (d : Dict α) (k : String) (v : α)
    (h : dictMem d k = false) : dictSet d k v = d ++ [(k, v)] := by
  induction d with
  | nil => rfl
  | cons kv rest ih =>
    obtain ⟨k1, v1⟩ := kv
    rw [dictMem_cons] at h
    rw [dictSet_cons]
    by_cases h1 : k1 = k
    · rw [if_pos h1] at h
      cases h
    · rw [if_neg h1] at h ⊢
      rw [ih h, List.cons_append]

end DictLemmas

end GTask

namespace GTask

section ScanLemmas

theorem findTask_cons (q : String) (t : Task) (rest : List Task) :
    findTask q (t :: rest) =
      if t.id = q then some t else findTask q rest := rfl

theorem updateFirstTask_cons (f : Task → Task) (q : String) (t : Task)
    (rest : List Task) :
    updateFirstTask f q (t :: rest) =
      if t.id = q then some (f t :: rest, f t)
      else
        match updateFirstTask f q rest with
        | none => none
        | some (ts, u) => some (t :: ts, u) := rfl

theorem replaceFirstTask_cons (f : Task → Task) (q : String) (t : Task)
    (rest : List Task) :
    replaceFirstTask f q (t :: rest) =
      if t.id = q then f t :: rest
      else t :: replaceFirstTask f q rest := rfl

theorem updateFirstTask_of_find (f : Task → Task) (q : String)
    (ts : List Task) (t : Task) (h : findTask q ts = some t) :
    updateFirstTask f q ts = some (replaceFirstTask f q ts, f t) := by
  induction ts with
  | nil => cases h
  | cons t1 rest ih =>
    rw [findTask_cons] at h
    rw [updateFirstTask_cons, replaceFirstTask_cons]
    by_cases h1 : t1.id = q
    · simp only [if_pos h1] at h ⊢
      obtain rfl : t1 = t := by injection h
      rfl
    · simp only [if_neg h1] at h ⊢
      rw [ih h]

theorem updateFirstTask_eq_none (f : Task → Task) (q : String)
    (ts : List Task) (h : findTask q ts = none) :
    updateFirstTask f q ts = none := by
  induction ts with
  | nil => rfl
  | cons t1 rest ih =>
    rw [findTask_cons] at h
    rw [updateFirstTask_cons]
    by_cases h1 : t1.id = q
    · rw [if_pos h1] at h
      cases h
    · rw [if_neg h1] at h ⊢
      rw [ih h]

theorem updateFirstTask_none_find (f : Task → Task) (q : String)
    (ts : List Task) (h : updateFirstTask f q ts = none) :
    findTask q ts = none := by
  cases hf : findTask q ts with
  | none => rfl
  | some t => rw [updateFirstTask_of_find f q ts t hf] at h; cases h

theorem replaceFirstTask_map_id (f : Task → Task) (q : String)
    (ts : List Task) (hid : ∀ u, (f u).id = u.id) :
    (replaceFirstTask f q ts).map Task.id = ts.map Task.id := by
  induction ts with
  | nil => rfl
  | cons t1 rest ih =>
    rw [replaceFirstTask_cons]
    by_cases h1 : t1.id = q
    · rw [if_pos h1, List.map_cons, List.map_cons, hid]
    · rw [if_neg h1, List.map_cons, List.map_cons, ih]

theorem findTask_replaceFirst_self (f : Task → Task) (q : String)
    (ts : List Task) (t : Task) (hid : ∀ u, (f u).id = u.id)
    (h : findTask q ts = some t) :
    findTask q (replaceFirstTask f q ts) = some (f t) := by
  induction ts with
  | nil => cases h
  | cons t1 rest ih =>
    rw [findTask_cons] at h
    rw [replaceFirstTask_cons]
    by_cases h1 : t1.id = q
    · rw [if_pos h1] at h ⊢
      obtain rfl : t1 = t := by injection h
      rw [findTask_cons, if_pos (by rw [hid]; exact h1)]
    · rw [if_neg h1] at h ⊢
      rw [findTask_cons, if_neg h1, ih h]

theorem replaceFirstTask_roundtrip (f g : Task → Task) (q : String)
    (ts : List Task) (t : Task) (hid : ∀ u, (f u).id = u.id)
    (h : findTask q ts = some t) (hg : g (f t) = t) :
    replaceFirstTask g q (replaceFirstTask f q ts) = ts := by
  induction ts with
  | nil => cases h
  | cons t1 rest ih =>
    rw [findTask_cons] at h
    rw [replaceFirstTask_cons]
    by_cases h1 : t1.id = q
    · rw [if_pos h1] at h ⊢
      obtain rfl : t1 = t := by injection h
      rw [replaceFirstTask_cons, if_pos (by rw [hid]; exact h1), hg]
    · rw [if_neg h1] at h ⊢
      rw [replaceFirstTask_cons, if_neg h1, ih h]

theorem findList_cons (q : String) (l : TaskList) (rest : List TaskList) :
    findList q (l :: rest) =
      if l.id = q then some l else findList q rest := rfl

theorem updateFirstList_cons (f : TaskList → TaskList) (q : String)
    (l : TaskList) (rest : List TaskList) :
    updateFirstList f q (l :: rest) =
      if l.id = q then some (f l :: rest)
      else
        match updateFirstList f q rest with
        | none => none
        | some ls => some (l :: ls) := rfl

theorem replaceFirstList_cons (f : TaskList → TaskList) (q : String)
    (l : TaskList) (rest : List TaskList) :
    replaceFirstList f q (l :: rest) =
      if l.id = q then f l :: rest
      else l :: replaceFirstList f q rest := rfl

theorem updateFirstList_of_find (f : TaskList → TaskList) (q : String)
    (ls : List TaskList) (l : TaskList) (h : findList q ls = some l) :
    updateFirstList f q ls = some (replaceFirstList f q ls) := by
  induction ls with
  | nil => cases h
  | cons l1 rest ih =>
    rw [findList_cons] at h
    rw [updateFirstList_cons, replaceFirstList_cons]
    by_cases h1 : l1.id = q
    · simp only [if_pos h1]
    · simp only [if_neg h1] at h ⊢
      rw [ih h]

theorem updateFirstList_none_find (f : TaskList → TaskList) (q : String)
    (ls : List TaskList) (h : updateFirstList f q ls = none) :
    findList q ls = none := by
  induction ls with
  | nil => rfl
  | cons l1 rest ih =>
    rw [updateFirstList_cons] at h
    rw [findList_cons]
    by_cases h1 : l1.id = q
    · rw [if_pos h1] at h
      cases h
    · rw [if_neg h1] at h ⊢
      cases hr : updateFirstList f q rest with
      | none => exact ih hr
      | some ls2 => rw [hr] at h; cases h

theorem replaceFirstList_map_id (f : TaskList → TaskList) (q : String)
    (ls : List TaskList) (hid : ∀ u, (f u).id = u.id) :
    (replaceFirstList f q ls).map TaskList.id = ls.map TaskList.id := by
  induction ls with
  | nil => rfl
  | cons l1 rest ih =>
    rw [replaceFirstList_cons]
    by_cases h1 : l1.id = q
    · rw [if_pos h1, List.map_cons, List.map_cons, hid]
    · rw [if_neg h1, List.map_cons, List.map_cons, ih]

theorem findList_replaceFirst_self (f : TaskList → TaskList) (q : String)
    (ls : List TaskList) (l : TaskList) (hid : ∀ u, (f u).id = u.id)
    (h : findList q ls = some l) :
    findList q (replaceFirstList f q ls) = some (f l) := by
  induction ls with
  | nil => cases h
  | cons l1 rest ih =>
    rw [findList_cons] at h
    rw [replaceFirstList_cons]
    by_cases h1 : l1.id = q
    · rw [if_pos h1] at h ⊢
      obtain rfl : l1 = l := by injection h
      rw [findList_cons, if_pos (by rw [hid]; exact h1)]
    · rw [if_neg h1] at h ⊢
      rw [findList_cons, if_neg h1, ih h]

theorem any_id_eq_of_map_id (ts ts2 : List Task) (tid : String)
    (h : ts2.map Task.id = ts.map Task.id) :
    ts2.any (fun t => t.id == tid) = ts.any (fun t => t.id == tid) := by
  have h2 : ∀ l : List Task,
      l.any (fun t => t.id == tid) = (l.map Task.id).any (fun i => i == tid) := by
    intro l
    induction l with
    | nil => rfl
    | cons x rest ih => simp [List.any_cons, ih]
  rw [h2, h2, h]

theorem listIdIn_eq_of_map_id (ls ls2 : List TaskList) (lid : String)
    (h : ls2.map TaskList.id = ls.map TaskList.id) :
    listIdIn ls2 lid = listIdIn ls lid := by
  have h2 : ∀ l : List TaskList,
      l.any (fun x => x.id == lid) = (l.map TaskList.id).any (fun i => i == lid) := by
    intro l
    induction l with
    | nil => rfl
    | cons x rest ih => simp [List.any_cons, ih]
  unfold listIdIn
  rw [h2, h2, h]

end ScanLemmas

end GTask

namespace GTask

section SharedLemmas

theorem mem_filter_not_deleted_task (l : List Task) (t : Task)
    (h : t ∈ l.filter (fun x => !x.deleted)) : t.deleted = false := by
  have h2 := List.mem_filter.mp h
  simpa using h2.2

theorem mem_filter_not_deleted_list (l : List TaskList) (x : TaskList)
    (h : x ∈ l.filter (fun y => !y.deleted)) : x.deleted = false := by
  have h2 := List.mem_filter.mp h
  simpa using h2.2

theorem dictGetD_of_not_mem {α : Type} (d : Dict α) (k : String) (v0 : α)
    (h : dictMem d k = false) : dictGetD d k v0 = v0 := by
  rw [dictMem_eq_isSome] at h
  unfold dictGetD
  cases hg : dictGet d k with
  | none => rfl
  | some v => rw [hg] at h; cases h

theorem updateFirstTask_some_elim (f : Task → Task) (q : String)
    (ts l2 : List Task) (u : Task)
    (h : updateFirstTask f q ts = some (l2, u)) :
    ∃ t0, findTask q ts = some t0 ∧ l2 = replaceFirstTask f q ts ∧ u = f t0 := by
  cases hf : findTask q ts with
  | none => rw [updateFirstTask_eq_none f q ts hf] at h; cases h
  | some t0 =>
    rw [updateFirstTask_of_find f q ts t0 hf] at h
    simp only [Option.some.injEq, Prod.mk.injEq] at h
    exact ⟨t0, rfl, h.1.symm, h.2.symm⟩

theorem updateFirstList_eq_none (f : TaskList → TaskList) (q : String)
    (ls : List TaskList) (h : findList q ls = none) :
    updateFirstList f q ls = none := by
  induction ls with
  | nil => rfl
  | cons l1 rest ih =>
    rw [findList_cons] at h
    rw [updateFirstList_cons]
    by_cases h1 : l1.id = q
    · rw [if_pos h1] at h
      cases h
    · rw [if_neg h1] at h ⊢
      rw [ih h]

theorem updateFirstList_some_elim (f : TaskList → TaskList) (q : String)
    (ls l2 : List TaskList) (h : updateFirstList f q ls = some l2) :
    ∃ l0, findList q ls = some l0 ∧ l2 = replaceFirstList f q ls := by
  cases hf : findList q ls with
  | none => rw [updateFirstList_eq_none f q ls hf] at h; cases h
  | some l0 =>
    rw [updateFirstList_of_find f q ls l0 hf] at h
    simp only [Option.some.injEq] at h
    exact ⟨l0, rfl, h.symm⟩

theorem findTask_mem_get (b : List Task) (q : String) (t : Task)
    (hf : findTask q b = some t) (d : Dict (List Task)) (k : String)
    (hb : b = dictGetD d k []) : dictGet d k = some b := by
  cases hg : dictGet d k with
  | none =>
    subst hb
    unfold dictGetD at hf
    rw [hg] at hf
    cases hf
  | some b0 =>
    subst hb
    unfold dictGetD
    rw [hg]

theorem preservesRecords_refl (s : State) : preservesRecords s s :=
  ⟨fun _ _ h => h, fun _ h => h⟩

theorem preservesRecords_tasks_update (s s2 : State) (lid : String)
    (ts2 : List Task)
    (hdata : s2.data.tasks = dictSet s.data.tasks lid ts2)
    (hlists : s2.data.task_lists = s.data.task_lists)
    (hmap : ts2.map Task.id = (dictGetD s.data.tasks lid []).map Task.id) :
    preservesRecords s s2 := by
  constructor
  · intro k tid h
    unfold taskIdIn at h ⊢
    rw [hdata]
    by_cases hk : k = lid
    · subst hk
      have hget : dictGetD (dictSet s.data.tasks k ts2) k [] = ts2 := by
        unfold dictGetD
        rw [dictGet_set_self]
      rw [hget, any_id_eq_of_map_id _ _ _ hmap]
      exact h
    · have hget : dictGetD (dictSet s.data.tasks lid ts2) k [] =
          dictGetD s.data.tasks k [] := by
        unfold dictGetD
        rw [dictGet_set_ne _ _ _ _ hk]
      rw [hget]
      exact h
  · intro lid2 h
    rw [hlists]
    exact h

theorem preservesRecords_lists_update (s s2 : State)
    (hdata : s2.data.tasks = s.data.tasks)
    (hmap : s2.data.task_lists.map TaskList.id =
      s.data.task_lists.map TaskList.id) :
    preservesRecords s s2 := by
  constructor
  · intro k tid h
    unfold taskIdIn at h ⊢
    rw [hdata]
    exact h
  · intro lid2 h
    rw [listIdIn_eq_of_map_id s.data.task_lists s2.data.task_lists lid2 hmap]
    exact h

theorem sync_to_google_not_dirty (r : Remote) (s : State)
    (h : s.dirty = false) : sync_to_google r s = .ok s := by
  unfold sync_to_google
  rw [if_pos h]

theorem sync_to_google_ok_elim (r : Remote) (s s2 : State)
    (h : sync_to_google r s = .ok s2) :
    s2.dirty = false ∧ (s.dirty = false → s2 = s) ∧
      (s.dirty = true → s2.stored = s2.data) := by
  unfold sync_to_google at h
  cases hd : s.dirty with
  | false =>
    rw [if_pos hd] at h
    injection h with h2
    subst h2
    exact ⟨hd, fun _ => rfl, fun hh => absurd hh (by simp [hd])⟩
  | true =>
    rw [if_neg (by simp [hd])] at h
    cases hsl : syncLists r [] s.data.task_lists with
    | exn ls => rw [hsl] at h; cases h
    | ok ls m =>
      rw [hsl] at h
      dsimp only at h
      cases hsb : syncBuckets r (rekey m s.data.tasks) with
      | exn d2 => rw [hsb] at h; cases h
      | ok d2 =>
        rw [hsb] at h
        dsimp only at h
        injection h with h2
        subst h2
        exact ⟨rfl, fun hh => absurd hh (by simp [hd]), fun _ => rfl⟩

theorem sync_from_google_ok_elim (r : Remote) (s s2 : State)
    (h : sync_from_google r s = .ok s2) : s2.dirty = false := by
  unfold sync_from_google at h
  cases hl : r.listLists with
  | none => rw [hl] at h; cases h
  | some ls =>
    rw [hl] at h
    dsimp only at h
    cases hf : fetchBuckets r [] ls with
    | mk d raised =>
      rw [hf] at h
      cases raised with
      | true => cases h
      | false =>
        injection h with h2
        subst h2
        rfl

end SharedLemmas

end GTask

namespace GTask

/-- C2 (amended): the cache-only mutating operations of section 4.2
mutate only the in-memory snapshot and the dirty flag; none of them
writes the durable store.  The snapshot is persisted only by the sync
entry points through save_local_data: a dirty sync_to_google run that
returns normally leaves the durable store equal to the snapshot. -/
theorem C2_no_write_through :
    (∀ lid title now s, ((add_task lid title now s).2).stored = s.stored)
  ∧ (∀ lid tid s, ((toggle_task_status lid tid s).2).stored = s.stored)
  ∧ (∀ lid tid s, ((delete_task lid tid s).2).stored = s.stored)
  ∧ (∀ lid tid nn s, ((rename_task lid tid nn s).2).stored = s.stored)
  ∧ (∀ p lid tid ds s,
      ((change_date_task p lid tid ds s).state).stored = s.stored)
  ∧ (∀ lid tid dt s, ((change_detail_task lid tid dt s).2).stored = s.stored)
  ∧ (∀ lid s, ((set_active_list lid s).2).stored = s.stored)
  ∧ (∀ nm now s, ((add_list nm now s).2).stored = s.stored)
  ∧ (∀ lid s, ((delete_list lid s).2).stored = s.stored)
  ∧ (∀ lid nt s, ((rename_list lid nt s).2).stored = s.stored)
  ∧ (∀ r s s2, sync_to_google r s = .ok s2 → s.dirty = true →
      s2.stored = s2.data) := by
  refine ⟨?_, ?_, ?_, ?_, ?_, ?_, ?_, ?_, ?_, ?_, ?_⟩
  · intro lid title now s
    unfold add_task
    split <;> rfl
  · intro lid tid s
    unfold toggle_task_status
    split
    · rfl
    · split <;> rfl
  · intro lid tid s
    unfold delete_task
    split
    · rfl
    · split <;> rfl
  · intro lid tid nn s
    unfold rename_task
    split
    · rfl
    · split <;> rfl
  · intro p lid tid ds s
    unfold change_date_task
    split
    · rfl
    · split
      · rfl
      · dsimp only
        split <;> rfl
  · intro lid tid dt s
    unfold change_detail_task
    split
    · rfl
    · split <;> rfl
  · intro lid s
    rfl
  · intro nm now s
    rfl
  · intro lid s
    unfold delete_list
    split <;> rfl
  · intro lid nt s
    unfold rename_list
    split
    · rfl
    · split <;> rfl
  · intro r s s2 h hd
    exact ((sync_to_google_ok_elim r s s2 h).2).2 hd

/-- C2 counterexample: immediately after add_task the durable store
still holds the old snapshot and differs from the in-memory snapshot,
so the mutating operation did not persist the snapshot as its final
observable side effect (it never calls save_local_data). -/
theorem C2_cex :
    ((add_task "l1" "Write spec" 5 demoState).2).stored ≠
      ((add_task "l1" "Write spec" 5 demoState).2).data := by
  decide

/-- C2 witness: a dirty sync run really does persist. -/
theorem C2_wit :
    ((sync_to_google demoRemote dirtyState).state).stored =
      ((sync_to_google demoRemote dirtyState).state).data :=
  C2_no_write_through.2.2.2.2.2.2.2.2.2.2 demoRemote dirtyState
    ((sync_to_google demoRemote dirtyState).state) (by decide) (by decide)

/-- C4: at the failing input, change_date_task does not return the
specified null parse-error signal.  The parser raises ValueError, the
evaluation of the except clause then raises AttributeError (the
function isoparse has no attribute ParserError), and that exception
propagates to the caller; the snapshot is left unmutated. -/
theorem C4_parse_failure_raises :
    change_date_task demoParse "l1" "t1" "not-a-date" demoState =
      OpResult.exn demoState
  ∧ demoParse "not-a-date" = none := by
  constructor
  · rfl
  · rfl

/-- C5: a successful sync clears the dirty flag, and a second sync on
the resulting state returns immediately with an identical state no
matter what the remote would answer, so no duplicate creates can be
issued. -/
theorem C5_sync_idempotent (r : Remote) (s s1 : State)
    (h : sync_to_google r s = .ok s1) :
    s1.dirty = false ∧ ∀ r2, sync_to_google r2 s1 = .ok s1 := by
  have hd := (sync_to_google_ok_elim r s s1 h).1
  exact ⟨hd, fun r2 => sync_to_google_not_dirty r2 s1 hd⟩

/-- C5 witness at a concrete clean state and two unrelated remotes. -/
theorem C5_wit :
    demoState.dirty = false ∧ sync_to_google failRemote demoState = .ok demoState := by
  have h := C5_sync_idempotent demoRemote demoState demoState (by decide)
  exact ⟨h.1, h.2 failRemote⟩

end GTask

namespace GTask

/-- C6: the dirty flag is false immediately after construction and
after every sync that returns normally, and every section 4.2 cache
operation that changes the snapshot leaves it true.  The snapshot is
the state the flag tracks; set_active_list moves only the in-memory
pointer and never changes the snapshot, which the last conjunct makes
explicit. -/
theorem C6_dirty_flag_contract :
    (∀ r loaded s, TaskService.init r loaded = .ok s → s.dirty = false)
  ∧ (∀ r s s2, sync_to_google r s = .ok s2 → s2.dirty = false)
  ∧ (∀ lid title now s, ((add_task lid title now s).2).data ≠ s.data →
      ((add_task lid title now s).2).dirty = true)
  ∧ (∀ lid tid s, ((toggle_task_status lid tid s).2).data ≠ s.data →
      ((toggle_task_status lid tid s).2).dirty = true)
  ∧ (∀ lid tid s, ((delete_task lid tid s).2).data ≠ s.data →
      ((delete_task lid tid s).2).dirty = true)
  ∧ (∀ lid tid nn s, ((rename_task lid tid nn s).2).data ≠ s.data →
      ((rename_task lid tid nn s).2).dirty = true)
  ∧ (∀ p lid tid ds s,
      ((change_date_task p lid tid ds s).state).data ≠ s.data →
      ((change_date_task p lid tid ds s).state).dirty = true)
  ∧ (∀ lid tid dt s, ((change_detail_task lid tid dt s).2).data ≠ s.data →
      ((change_detail_task lid tid dt s).2).dirty = true)
  ∧ (∀ nm now s, ((add_list nm now s).2).dirty = true)
  ∧ (∀ lid s, ((delete_list lid s).2).data ≠ s.data →
      ((delete_list lid s).2).dirty = true)
  ∧ (∀ lid nt s, ((rename_list lid nt s).2).data ≠ s.data →
      ((rename_list lid nt s).2).dirty = true)
  ∧ (∀ lid s, ((set_active_list lid s).2).data = s.data) := by
  refine ⟨?_, ?_, ?_, ?_, ?_, ?_, ?_, ?_, ?_, ?_, ?_, ?_⟩
  · intro r loaded s h
    unfold TaskService.init at h
    dsimp only at h
    split at h
    · cases hsf : sync_from_google r
          { data := loaded, dirty := false, active_list_id := "", stored := loaded } with
      | exn s3 => rw [hsf] at h; cases h
      | ok s3 =>
        rw [hsf] at h
        dsimp only at h
        injection h with h2
        subst h2
        exact sync_from_google_ok_elim r
          { data := loaded, dirty := false, active_list_id := "", stored := loaded }
          s3 hsf
    · injection h with h2
      subst h2
      rfl
  · intro r s s2 h
    exact (sync_to_google_ok_elim r s s2 h).1
  · intro lid title now s
    unfold add_task
    split
    · intro h; exact absurd rfl h
    · intro _; rfl
  · intro lid tid s
    unfold toggle_task_status
    split
    · intro h; exact absurd rfl h
    · split
      · intro h; exact absurd rfl h
      · intro _; rfl
  · intro lid tid s
    unfold delete_task
    split
    · intro h; exact absurd rfl h
    · split
      · intro h; exact absurd rfl h
      · intro _; rfl
  · intro lid tid nn s
    unfold rename_task
    split
    · intro h; exact absurd rfl h
    · split
      · intro h; exact absurd rfl h
      · intro _; rfl
  · intro p lid tid ds s
    unfold change_date_task
    split
    · intro h; exact absurd rfl h
    · split
      · intro h; exact absurd rfl h
      · dsimp only
        split
        · intro h; exact absurd rfl h
        · intro _; rfl
  · intro lid tid dt s
    unfold change_detail_task
    split
    · intro h; exact absurd rfl h
    · split
      · intro h; exact absurd rfl h
      · intro _; rfl
  · intro nm now s
    rfl
  · intro lid s
    unfold delete_list
    split
    · intro h; exact absurd rfl h
    · intro _; rfl
  · intro lid nt s
    unfold rename_list
    split
    · intro h; exact absurd rfl h
    · split
      · intro h; exact absurd rfl h
      · intro _; rfl
  · intro lid s
    rfl

/-- C6 witness: a constructed engine over a nonempty store is clean,
and a concrete mutation marks it dirty. -/
theorem C6_wit :
    demoState.dirty = false
  ∧ ((add_task "l1" "New" 7 demoState).2).dirty = true := by
  constructor
  · exact C6_dirty_flag_contract.1 demoRemote demoSnap demoState (by decide)
  · exact C6_dirty_flag_contract.2.2.1 "l1" "New" 7 demoState (by decide)

/-- C7 (amended): referential integrity is preserved by add_task
whenever the target list-id is the id of a TaskList present in
task_lists; for an arbitrary unknown list-id add_task creates an
orphan bucket instead (see the counterexample). -/
theorem C7_ref_integrity_add_task (lid title : String) (now : Nat)
    (s : State) (hInv : refIntegrity s.data = true)
    (hlid : listIdIn s.data.task_lists lid = true) :
    refIntegrity ((add_task lid title now s).2).data = true := by
  unfold add_task
  split
  · exact hInv
  · unfold refIntegrity at hInv ⊢
    dsimp only
    by_cases hm : dictMem s.data.tasks lid = true
    · rw [if_pos hm, dictKeys_set_of_mem _ _ _ hm]
      exact hInv
    · rw [Bool.not_eq_true] at hm
      rw [if_neg (by rw [hm]; exact Bool.false_ne_true)]
      have hm0 : dictMem (dictSet s.data.tasks lid []) lid = true :=
        dictMem_set_self _ _ _
      rw [dictKeys_set_of_mem _ _ _ hm0, dictKeys_set_of_not_mem _ _ _ hm,
        List.all_append]
      simp only [List.all_cons, List.all_nil, Bool.and_true]
      rw [hInv, hlid]
      rfl

/-- C7 counterexample: from a snapshot satisfying the invariant,
add_task with a list-id matching no TaskList creates a tasks-mapping
key that references no list, breaking referential integrity. -/
theorem C7_cex :
    refIntegrity demoState.data = true
  ∧ refIntegrity ((add_task "ghost" "Stray" 1 demoState).2).data = false := by
  constructor
  · decide
  · decide

/-- C7 witness: add_task into an existing list keeps the invariant. -/
theorem C7_wit :
    refIntegrity ((add_task "l1" "New" 2 demoState).2).data = true :=
  C7_ref_integrity_add_task "l1" "New" 2 demoState (by decide) (by decide)

/-- Every record returned by the bulk task read has the deleted flag
clear (it is a filter on that flag). -/
theorem get_tasks_for_list_deleted_false (lid2 : String) (s : State)
    (t : Task) (h : t ∈ get_tasks_for_list lid2 s) : t.deleted = false := by
  unfold get_tasks_for_list at h
  dsimp only at h
  by_cases hc : (if lid2 = "" then s.active_list_id else lid2) = ""
  · rw [if_pos hc] at h
    cases h
  · rw [if_neg hc] at h
    exact mem_filter_not_deleted_task _ _ h

/-- Every record returned by the bulk list read has the deleted flag
clear. -/
theorem get_task_lists_deleted_false (s : State) (l : TaskList)
    (h : l ∈ get_task_lists s) : l.deleted = false :=
  mem_filter_not_deleted_list _ _ h

/-- C10: after a successful cache-only delete, the single-record
lookup get_task still returns the tombstoned record, now with the
deleted flag set, while the bulk reads get_tasks_for_list and
get_task_lists only ever return records whose deleted flag is clear. -/
theorem C10_get_task_sees_tombstone (lid tid : String) (s s2 : State)
    (h : delete_task lid tid s = (some true, s2)) :
    get_task lid tid s2 =
      Option.map (fun t => { t with deleted := true }) (get_task lid tid s)
  ∧ (get_task lid tid s).isSome = true
  ∧ (∀ lid2 t, t ∈ get_tasks_for_list lid2 s2 → t.deleted = false)
  ∧ (∀ l, l ∈ get_task_lists s2 → l.deleted = false) := by
  unfold delete_task at h
  by_cases hl : lid = ""
  · rw [if_pos hl] at h
    simp at h
  · rw [if_neg hl] at h
    cases hu : updateFirstTask (fun t => { t with deleted := true }) tid
        (dictGetD s.data.tasks lid []) with
    | none => rw [hu] at h; simp at h
    | some p =>
      obtain ⟨ts2, u⟩ := p
      rw [hu] at h
      dsimp only at h
      injection h with ha hb
      subst hb
      obtain ⟨t0, hf, hts, hueq⟩ := updateFirstTask_some_elim _ _ _ _ _ hu
      subst hts
      have hbucket :
          dictGetD (dictSet s.data.tasks lid
            (replaceFirstTask (fun t => { t with deleted := true }) tid
              (dictGetD s.data.tasks lid []))) lid [] =
          replaceFirstTask (fun t => { t with deleted := true }) tid
            (dictGetD s.data.tasks lid []) := by
        unfold dictGetD
        rw [dictGet_set_self]
      refine ⟨?_, ?_, ?_, ?_⟩
      · unfold get_task
        rw [if_neg hl, if_neg hl, hf]
        rw [hbucket,
          findTask_replaceFirst_self (fun t => { t with deleted := true })
            tid _ t0 (fun u2 => rfl) hf]
        rfl
      · unfold get_task
        rw [if_neg hl, hf]
        rfl
      · exact fun lid2 t ht => get_tasks_for_list_deleted_false lid2 _ t ht
      · exact fun l hl2 => get_task_lists_deleted_false _ l hl2

/-- C10 witness at a concrete snapshot. -/
theorem C10_wit :
    get_task "l1" "t1" ((delete_task "l1" "t1" demoState).2) =
      Option.map (fun t => { t with deleted := true })
        (get_task "l1" "t1" demoState)
  ∧ (get_task "l1" "t1" demoState).isSome = true := by
  have h := C10_get_task_sees_tombstone "l1" "t1" demoState
    ((delete_task "l1" "t1" demoState).2) (by decide)
  exact ⟨h.1, h.2.1⟩

end GTask

namespace GTask

theorem dictGetD_set_self {α : Type} (d : Dict α) (k : String) (v v0 : α) :
    dictGetD (dictSet d k v) k v0 = v := by
  unfold dictGetD
  rw [dictGet_set_self]

theorem dictGetD_set_ne {α : Type} (d : Dict α) (k k2 : String) (v v0 : α)
    (h : k2 ≠ k) : dictGetD (dictSet d k v) k2 v0 = dictGetD d k2 v0 := by
  unfold dictGetD
  rw [dictGet_set_ne _ _ _ _ h]

/-- add_task on a non-falsy list id always appends the new record to
the bucket of that id (creating it when absent). -/
theorem add_task_bucket (lid title : String) (now : Nat) (s : State)
    (hl : ¬ lid = "") :
    ((add_task lid title now s).2).data.tasks =
      dictSet s.data.tasks lid (dictGetD s.data.tasks lid [] ++
        [{ id := "temp_" ++ toString now, title := title,
           status := "needsAction" }])
  ∧ ((add_task lid title now s).2).data.task_lists = s.data.task_lists := by
  unfold add_task
  rw [if_neg hl]
  dsimp only
  constructor
  · by_cases hm : dictMem s.data.tasks lid = true
    · rw [if_pos hm]
    · rw [Bool.not_eq_true] at hm
      rw [if_neg (by rw [hm]; exact Bool.false_ne_true)]
      rw [dictSet_set_same]
      rw [dictGetD_set_self, dictGetD_of_not_mem _ _ _ hm]
  · rfl

theorem preservesRecords_mutator (s : State) (lid tid : String)
    (f : Task → Task) (hid : ∀ u, (f u).id = u.id) (ts2 : List Task)
    (u : Task)
    (hu : updateFirstTask f tid (dictGetD s.data.tasks lid []) = some (ts2, u)) :
    preservesRecords s
      { s with data := { s.data with tasks := dictSet s.data.tasks lid ts2 },
               dirty := true } := by
  obtain ⟨t0, hf, hts, hueq⟩ := updateFirstTask_some_elim _ _ _ _ _ hu
  subst hts
  exact preservesRecords_tasks_update _ _ lid _ rfl rfl
    (replaceFirstTask_map_id f tid _ hid)

/-- C8: delete_task and delete_list tombstone in place: on success the
bucket and the list sequence keep exactly the same identifiers and the
first matching record reappears with the deleted flag set; moreover no
cache-only operation of section 4.2 removes a task or list record from
the snapshot (add_list carries the freshness premise of section 3 that
its provisional identifier is not already a bucket key). -/
theorem C8_tombstone_deletes :
    (∀ lid tid s s2, delete_task lid tid s = (some true, s2) →
      ((dictGetD s2.data.tasks lid []).map Task.id =
        (dictGetD s.data.tasks lid []).map Task.id
      ∧ findTask tid (dictGetD s2.data.tasks lid []) =
          Option.map (fun t => { t with deleted := true })
            (findTask tid (dictGetD s.data.tasks lid []))))
  ∧ (∀ lid s s2, delete_list lid s = (true, s2) →
      (s2.data.task_lists.map TaskList.id =
        s.data.task_lists.map TaskList.id
      ∧ findList lid s2.data.task_lists =
          Option.map (fun l => { l with deleted := true })
            (findList lid s.data.task_lists)))
  ∧ (∀ lid title now s, preservesRecords s (add_task lid title now s).2)
  ∧ (∀ lid tid s, preservesRecords s (toggle_task_status lid tid s).2)
  ∧ (∀ lid tid s, preservesRecords s (delete_task lid tid s).2)
  ∧ (∀ lid tid nn s, preservesRecords s (rename_task lid tid nn s).2)
  ∧ (∀ p lid tid ds s,
      preservesRecords s (change_date_task p lid tid ds s).state)
  ∧ (∀ lid tid dt s, preservesRecords s (change_detail_task lid tid dt s).2)
  ∧ (∀ lid s, preservesRecords s (set_active_list lid s).2)
  ∧ (∀ nm now s, dictMem s.data.tasks ("temp_list_" ++ toString now) = false →
      preservesRecords s (add_list nm now s).2)
  ∧ (∀ lid s, preservesRecords s (delete_list lid s).2)
  ∧ (∀ lid nt s, preservesRecords s (rename_list lid nt s).2) := by
  refine ⟨?_, ?_, ?_, ?_, ?_, ?_, ?_, ?_, ?_, ?_, ?_, ?_⟩
  · intro lid tid s s2 h
    unfold delete_task at h
    by_cases hl : lid = ""
    · rw [if_pos hl] at h
      simp at h
    · rw [if_neg hl] at h
      cases hu : updateFirstTask (fun t => { t with deleted := true }) tid
          (dictGetD s.data.tasks lid []) with
      | none => rw [hu] at h; simp at h
      | some p =>
        obtain ⟨ts2, u⟩ := p
        rw [hu] at h
        dsimp only at h
        injection h with ha hb
        subst hb
        obtain ⟨t0, hf, hts, hueq⟩ := updateFirstTask_some_elim _ _ _ _ _ hu
        subst hts
        constructor
        · show (dictGetD (dictSet s.data.tasks lid _) lid []).map Task.id = _
          rw [dictGetD_set_self]
          exact replaceFirstTask_map_id _ tid _ (fun u2 => rfl)
        · show findTask tid (dictGetD (dictSet s.data.tasks lid _) lid []) = _
          rw [dictGetD_set_self, hf,
            findTask_replaceFirst_self (fun t => { t with deleted := true })
              tid _ t0 (fun u2 => rfl) hf]
          rfl
  · intro lid s s2 h
    unfold delete_list at h
    cases hu : updateFirstList (fun l => { l with deleted := true }) lid
        s.data.task_lists with
    | none => rw [hu] at h; simp at h
    | some ls2 =>
      rw [hu] at h
      dsimp only at h
      injection h with ha hb
      subst hb
      obtain ⟨l0, hf, hls⟩ := updateFirstList_some_elim _ _ _ _ hu
      subst hls
      constructor
      · exact replaceFirstList_map_id _ lid _ (fun u2 => rfl)
      · rw [hf, findList_replaceFirst_self (fun l => { l with deleted := true })
          lid _ l0 (fun u2 => rfl) hf]
        rfl
  · intro lid title now s
    by_cases hl : lid = ""
    · unfold add_task
      rw [if_pos hl]
      exact preservesRecords_refl s
    · obtain ⟨h1, h2⟩ := add_task_bucket lid title now s hl
      constructor
      · intro k tid h
        unfold taskIdIn at h ⊢
        rw [h1]
        by_cases hk : k = lid
        · subst hk
          rw [dictGetD_set_self, List.any_append, h]
          rfl
        · rw [dictGetD_set_ne _ _ _ _ _ hk]
          exact h
      · intro lid2 h
        rw [h2]
        exact h
  · intro lid tid s
    unfold toggle_task_status
    split
    · exact preservesRecords_refl s
    · split
      · exact preservesRecords_refl s
      · rename_i ts u heq
        exact preservesRecords_mutator s lid tid toggleStatus
          (fun u2 => rfl) ts u heq
  · intro lid tid s
    unfold delete_task
    split
    · exact preservesRecords_refl s
    · split
      · exact preservesRecords_refl s
      · rename_i ts u heq
        exact preservesRecords_mutator s lid tid
          (fun t => { t with deleted := true }) (fun u2 => rfl) ts u heq
  · intro lid tid nn s
    unfold rename_task
    split
    · exact preservesRecords_refl s
    · split
      · exact preservesRecords_refl s
      · rename_i ts u heq
        exact preservesRecords_mutator s lid tid
          (fun t => { t with title := nn }) (fun u2 => rfl) ts u heq
  · intro p lid tid ds s
    unfold change_date_task
    split
    · exact preservesRecords_refl s
    · split
      · exact preservesRecords_refl s
      · rename_i iso hiso
        dsimp only
        split
        · exact preservesRecords_refl s
        · rename_i ts u heq
          exact preservesRecords_mutator s lid tid
            (fun t => { t with due := some (iso ++ "Z") }) (fun u2 => rfl)
            ts u heq
  · intro lid tid dt s
    unfold change_detail_task
    split
    · exact preservesRecords_refl s
    · split
      · exact preservesRecords_refl s
      · rename_i ts u heq
        exact preservesRecords_mutator s lid tid
          (fun t => { t with notes := some dt }) (fun u2 => rfl) ts u heq
  · intro lid s
    exact ⟨fun _ _ h => h, fun _ h => h⟩
  · intro nm now s hfresh
    unfold add_list
    dsimp only
    constructor
    · intro k tid h
      unfold taskIdIn at h ⊢
      dsimp only
      have hk : ¬ k = "temp_list_" ++ toString now := by
        intro he
        rw [he, dictGetD_of_not_mem _ _ _ hfresh] at h
        exact Bool.noConfusion h
      rw [dictGetD_set_ne _ _ _ _ _ hk]
      exact h
    · intro lid2 h
      unfold listIdIn at h ⊢
      dsimp only
      rw [List.any_append, h]
      rfl
  · intro lid s
    unfold delete_list
    split
    · exact preservesRecords_refl s
    · rename_i ls2 heq
      obtain ⟨l0, hf0, hrep⟩ := updateFirstList_some_elim _ _ _ _ heq
      subst hrep
      exact preservesRecords_lists_update _ _ rfl
        (replaceFirstList_map_id _ _ _ (fun u2 => rfl))
  · intro lid nt s
    unfold rename_list
    split
    · exact preservesRecords_refl s
    · split
      · exact preservesRecords_refl s
      · rename_i ls2 heq
        obtain ⟨l0, hf0, hrep⟩ := updateFirstList_some_elim _ _ _ _ heq
        subst hrep
        exact preservesRecords_lists_update _ _ rfl
          (replaceFirstList_map_id _ _ _ (fun u2 => rfl))

/-- C8 witness: a concrete delete tombstones in place. -/
theorem C8_wit :
    (dictGetD ((delete_task "l1" "t1" demoState).2).data.tasks "l1" []).map
        Task.id =
      (dictGetD demoState.data.tasks "l1" []).map Task.id
  ∧ findTask "t1"
        (dictGetD ((delete_task "l1" "t1" demoState).2).data.tasks "l1" []) =
      Option.map (fun t => { t with deleted := true })
        (findTask "t1" (dictGetD demoState.data.tasks "l1" [])) :=
  C8_tombstone_deletes.1 "l1" "t1" demoState
    ((delete_task "l1" "t1" demoState).2) (by decide)

end GTask

namespace GTask

/-- C9 (amended): in the cache engine (tasks_tui), toggling a task
whose status is needsAction returns the record with only the status
field changed (title untouched), and toggling again returns exactly
the original record and restores the snapshot.  The gtask_tui mock
variant does not satisfy the claim: its toggle also rewrites the
title, appending a completion marker (see the counterexample). -/
theorem C9_double_toggle (lid tid : String) (s : State) (t : Task)
    (hl : ¬ lid = "")
    (hf : findTask tid (dictGetD s.data.tasks lid []) = some t)
    (hst : t.status = "needsAction") :
    (toggle_task_status lid tid s).1 = some { t with status := "completed" }
  ∧ toggle_task_status lid tid ((toggle_task_status lid tid s).2) =
      (some t, { s with dirty := true }) := by
  have hid : ∀ u : Task, (toggleStatus u).id = u.id := fun u => rfl
  have hft : toggleStatus t = { t with status := "completed" } := by
    unfold toggleStatus
    rw [hst, if_pos rfl]
  have hgt : toggleStatus (toggleStatus t) = t := by
    rw [hft]
    unfold toggleStatus
    rw [show ({ t with status := "completed" } : Task).status = "completed" from rfl]
    rw [if_neg (by decide)]
    cases t with
    | mk i ti st du no de =>
      dsimp only at hst
      rw [hst]
  have hu1 := updateFirstTask_of_find toggleStatus tid _ t hf
  have hget : dictGet s.data.tasks lid = some (dictGetD s.data.tasks lid []) :=
    findTask_mem_get _ tid t hf s.data.tasks lid rfl
  have hf2 : findTask tid (replaceFirstTask toggleStatus tid
      (dictGetD s.data.tasks lid [])) = some (toggleStatus t) :=
    findTask_replaceFirst_self toggleStatus tid _ t hid hf
  have hu2 := updateFirstTask_of_find toggleStatus tid _ (toggleStatus t) hf2
  have hrt : replaceFirstTask toggleStatus tid (replaceFirstTask toggleStatus
      tid (dictGetD s.data.tasks lid [])) = dictGetD s.data.tasks lid [] :=
    replaceFirstTask_roundtrip toggleStatus toggleStatus tid _ t hid hf hgt
  have e2 : (toggle_task_status lid tid s).2 =
      { s with
          data := { s.data with
              tasks :=
                dictSet s.data.tasks lid
                  (replaceFirstTask toggleStatus tid
                    (dictGetD s.data.tasks lid [])) },
          dirty := true } := by
    unfold toggle_task_status
    rw [if_neg hl, hu1]
  constructor
  · unfold toggle_task_status
    rw [if_neg hl, hu1]
    dsimp only
    rw [hft]
  · rw [e2]
    unfold toggle_task_status
    rw [if_neg hl]
    dsimp only
    rw [dictGetD_set_self, hu2]
    dsimp only
    rw [hrt, hgt, dictSet_set_same, dictSet_of_get _ _ _ hget]

/-- C9 witness at a concrete snapshot. -/
theorem C9_wit :
    (toggle_task_status "l1" "t1" demoState).1 =
      some { demoTask1 with status := "completed" }
  ∧ toggle_task_status "l1" "t1" ((toggle_task_status "l1" "t1" demoState).2) =
      (some demoTask1, { demoState with dirty := true }) :=
  C9_double_toggle "l1" "t1" demoState demoTask1 (by decide) (by decide)
    (by decide)

end GTask

namespace GtaskTui

/-- C9 counterexample: in the gtask_tui variant cited by the claim, a
single toggle of a needsAction task changes the title as well as the
status, so the toggle does not affect only the status field. -/
theorem C9_cex :
    toggle_task_status mockTasks "list1" "g1" =
      GRes.ok
        (some { id := "g1", title := "Buy groceries (Completed)",
                status := "completed" })
        [("list1", [{ id := "g1", title := "Buy groceries (Completed)",
                      status := "completed" }])]
  ∧ ("Buy groceries (Completed)" : String) ≠ gtask1.title := by
  constructor
  · rfl
  · decide

end GtaskTui

namespace GTask

section SyncLemmas

theorem syncLists_cons (r : Remote) (m : Dict String) (tl : TaskList)
    (rest : List TaskList) :
    syncLists r m (tl :: rest) =
      (if tl.deleted then
        match syncLists r m rest with
        | .ok ls m2 => .ok (tl :: ls) m2
        | .exn ls => .exn (tl :: ls)
      else if strStartsWith tl.id "temp_list_" then
        match r.insertList tl.title with
        | none => .exn (tl :: rest)
        | some nl =>
          match syncLists r (dictSet m tl.id nl.id) rest with
          | .ok ls m2 => .ok (nl :: ls) m2
          | .exn ls => .exn (nl :: ls)
      else
        match syncLists r m rest with
        | .ok ls m2 => .ok (tl :: ls) m2
        | .exn ls => .exn (tl :: ls)) := rfl

theorem listIdMap_cons (r : Remote) (m : Dict String) (l : TaskList)
    (rest : List TaskList) :
    listIdMap r m (l :: rest) =
      listIdMap r
        (if !l.deleted && strStartsWith l.id "temp_list_" then
          dictSet m l.id (serverId r l)
        else m) rest := rfl

theorem tempLists_cons (l : TaskList) (rest : List TaskList) :
    tempLists (l :: rest) =
      if !l.deleted && strStartsWith l.id "temp_list_" then
        l :: tempLists rest
      else tempLists rest := by
  unfold tempLists
  rw [List.filter_cons]

theorem syncLists_ok (r : Remote) (ls : List TaskList)
    (h : ∀ l ∈ ls, l.deleted = false → strStartsWith l.id "temp_list_" = true →
      (r.insertList l.title).isSome = true) :
    ∀ m, syncLists r m ls = .ok (ls.map (replaceL r)) (listIdMap r m ls) := by
  induction ls with
  | nil => intro m; rfl
  | cons tl rest ih =>
    intro m
    have hrest : ∀ l ∈ rest, l.deleted = false →
        strStartsWith l.id "temp_list_" = true →
        (r.insertList l.title).isSome = true :=
      fun l hl => h l (List.mem_cons_of_mem _ hl)
    rw [syncLists_cons, listIdMap_cons, List.map_cons]
    cases hd : tl.deleted with
    | true =>
      rw [if_pos rfl, ih hrest m]
      have hrl : replaceL r tl = tl := by
        unfold replaceL
        rw [if_pos hd]
      rw [hrl, if_neg (by simp)]
    | false =>
      rw [if_neg (by simp)]
      cases ht : strStartsWith tl.id "temp_list_" with
      | true =>
        obtain ⟨nl, hnl⟩ :=
          Option.isSome_iff_exists.mp (h tl (List.mem_cons_self _ _) hd ht)
        rw [if_pos rfl, hnl]
        dsimp only
        rw [ih hrest (dictSet m tl.id nl.id)]
        have hrl : replaceL r tl = nl := by
          unfold replaceL
          rw [if_neg (by simp [hd]), if_pos ht, hnl]
        have hsid : serverId r tl = nl.id := by
          unfold serverId
          rw [hnl]
        rw [hrl, hsid, if_pos (by decide : (!false && true) = true)]
      | false =>
        rw [if_neg (by simp), ih hrest m]
        have hrl : replaceL r tl = tl := by
          unfold replaceL
          rw [if_neg (by simp [hd]), if_neg (by simp [ht])]
        rw [hrl, if_neg (by simp)]

theorem syncTasks_cons (r : Remote) (lid : String) (t : Task)
    (rest : List Task) :
    syncTasks r lid (t :: rest) =
      (if t.deleted then
        match syncTasks r lid rest with
        | .ok ts => .ok (t :: ts)
        | .exn ts => .exn (t :: ts)
      else if strStartsWith t.id "temp_" then
        match r.insertTask lid t.title t.due t.notes with
        | none => .exn (t :: rest)
        | some nt =>
          match syncTasks r lid rest with
          | .ok ts => .ok (nt :: ts)
          | .exn ts => .exn (nt :: ts)
      else
        match syncTasks r lid rest with
        | .ok ts => .ok (updateStep r lid t :: ts)
        | .exn ts => .exn (updateStep r lid t :: ts)) := rfl

theorem syncTasks_ok (r : Remote) (lid : String)
    (hIT : ∀ t d n, (r.insertTask lid t d n).isSome = true) :
    ∀ ts, syncTasks r lid ts = .ok (ts.map (taskStep r lid)) := by
  intro ts
  induction ts with
  | nil => rfl
  | cons t rest ih =>
    rw [syncTasks_cons, List.map_cons, ih]
    cases hd : t.deleted with
    | true =>
      rw [if_pos rfl]
      have hts : taskStep r lid t = t := by
        unfold taskStep
        rw [if_pos hd]
      rw [hts]
    | false =>
      rw [if_neg (by simp)]
      cases ht : strStartsWith t.id "temp_" with
      | true =>
        obtain ⟨nt, hnt⟩ :=
          Option.isSome_iff_exists.mp (hIT t.title t.due t.notes)
        rw [if_pos rfl, hnt]
        have hts : taskStep r lid t = nt := by
          unfold taskStep
          rw [if_neg (by simp [hd]), if_pos ht, hnt]
        rw [hts]
      | false =>
        rw [if_neg (by simp)]
        have hts : taskStep r lid t = updateStep r lid t := by
          unfold taskStep
          rw [if_neg (by simp [hd]), if_neg (by simp [ht])]
        rw [hts]

theorem syncBuckets_cons (r : Remote) (k : String) (ts : List Task)
    (rest : Dict (List Task)) :
    syncBuckets r ((k, ts) :: rest) =
      (if strStartsWith k "temp_list_" then
        match syncBuckets r rest with
        | .ok d => .ok ((k, ts) :: d)
        | .exn d => .exn ((k, ts) :: d)
      else
        match syncTasks r k ts with
        | .exn ts2 => .exn ((k, ts2) :: rest)
        | .ok ts2 =>
          match syncBuckets r rest with
          | .ok d => .ok ((k, ts2) :: d)
          | .exn d => .exn ((k, ts2) :: d)) := rfl

theorem syncedBuckets_cons (r : Remote) (k : String) (ts : List Task)
    (rest : Dict (List Task)) :
    syncedBuckets r ((k, ts) :: rest) =
      (k, if strStartsWith k "temp_list_" then ts else ts.map (taskStep r k)) ::
        syncedBuckets r rest := rfl

theorem syncBuckets_ok (r : Remote)
    (hIT : ∀ lid t d n, (r.insertTask lid t d n).isSome = true) :
    ∀ d, syncBuckets r d = .ok (syncedBuckets r d) := by
  intro d
  induction d with
  | nil => rfl
  | cons kv rest ih =>
    obtain ⟨k, ts⟩ := kv
    rw [syncBuckets_cons, syncedBuckets_cons, ih]
    cases hk : strStartsWith k "temp_list_" with
    | true => rw [if_pos rfl, if_pos rfl]
    | false =>
      rw [if_neg (by simp), if_neg (by simp),
        syncTasks_ok r k (fun t dd n => hIT k t dd n) ts]

theorem syncedBuckets_get (r : Remote) (d : Dict (List Task)) (k : String) :
    dictGet (syncedBuckets r d) k = (dictGet d k).map
      (fun ts => if strStartsWith k "temp_list_" then ts
                 else ts.map (taskStep r k)) := by
  induction d with
  | nil => rfl
  | cons kv rest ih =>
    obtain ⟨k1, ts1⟩ := kv
    rw [syncedBuckets_cons, dictGet_cons, dictGet_cons]
    by_cases h : k1 = k
    · subst h
      rw [if_pos rfl, if_pos rfl]
      rfl
    · rw [if_neg h, if_neg h, ih]

theorem syncedBuckets_mem (r : Remote) (d : Dict (List Task)) (k : String) :
    dictMem (syncedBuckets r d) k = dictMem d k := by
  induction d with
  | nil => rfl
  | cons kv rest ih =>
    obtain ⟨k1, ts1⟩ := kv
    rw [syncedBuckets_cons, dictMem_cons, dictMem_cons]
    by_cases h : k1 = k
    · rw [if_pos h, if_pos h]
    · rw [if_neg h, if_neg h, ih]

end SyncLemmas

end GTask

namespace GTask

/-- C1 (amended): during a dirty sync pass, failures of the remote
calls that the code wraps in try blocks — list delete, task delete,
task get, task update — are swallowed per item: the pass leaves the
failed item unchanged (taskStep fixes it), runs to completion and
persists the snapshot, whatever those calls answer (the first conjunct
assumes nothing about them).  A failure of a remote create (list
insert or task insert) is not caught: it aborts the pass, as the
counterexample shows. -/
theorem C1_sync_best_effort :
    (∀ r s, s.dirty = true →
      (∀ title, (r.insertList title).isSome = true) →
      (∀ lid t d n, (r.insertTask lid t d n).isSome = true) →
      ((sync_to_google r s).isOk = true
       ∧ ((sync_to_google r s).state).dirty = false
       ∧ ((sync_to_google r s).state).stored =
           ((sync_to_google r s).state).data))
  ∧ (∀ r lid ts, (∀ t d n, (r.insertTask lid t d n).isSome = true) →
      syncTasks r lid ts = .ok (ts.map (taskStep r lid)))
  ∧ (∀ r lid t, t.deleted = true → taskStep r lid t = t)
  ∧ (∀ r lid t, t.deleted = false → strStartsWith t.id "temp_" = false →
      r.getTask lid t.id = none → taskStep r lid t = t)
  ∧ (∀ r lid t g, t.deleted = false → strStartsWith t.id "temp_" = false →
      r.getTask lid t.id = some g → r.updateTask lid t.id t = none →
      taskStep r lid t = t) := by
  refine ⟨?_, ?_, ?_, ?_, ?_⟩
  · intro r s hd hIL hIT
    have hls := syncLists_ok r s.data.task_lists
      (fun l _ _ _ => hIL l.title) []
    have hsb := syncBuckets_ok r hIT
      (rekey (listIdMap r [] s.data.task_lists) s.data.tasks)
    have hrun : sync_to_google r s =
        .ok (save_local_data
          { s with data :=
              { task_lists := s.data.task_lists.map (replaceL r),
                tasks := syncedBuckets r
                  (rekey (listIdMap r [] s.data.task_lists)
                    s.data.tasks) } }) := by
      unfold sync_to_google
      rw [if_neg (by simp [hd]), hls]
      dsimp only
      rw [hsb]
    rw [hrun]
    exact ⟨rfl, rfl, rfl⟩
  · intro r lid ts hIT
    exact syncTasks_ok r lid hIT ts
  · intro r lid t hd
    unfold taskStep
    rw [if_pos hd]
  · intro r lid t hd ht hg
    unfold taskStep
    rw [if_neg (by simp [hd]), if_neg (by simp [ht])]
    unfold updateStep
    rw [hg]
  · intro r lid t g hd ht hg hu
    unfold taskStep
    rw [if_neg (by simp [hd]), if_neg (by simp [ht])]
    unfold updateStep
    rw [hg]
    dsimp only
    split
    · rw [hu]
    · rfl

/-- C1 witness: on a remote whose creates succeed, whose deletes
succeed, and whose every task fetch fails, a dirty sync still
completes, persists and comes back clean. -/
theorem C1_wit :
    (sync_to_google demoRemote dirtyState).isOk = true
  ∧ ((sync_to_google demoRemote dirtyState).state).dirty = false
  ∧ ((sync_to_google demoRemote dirtyState).state).stored =
      ((sync_to_google demoRemote dirtyState).state).data :=
  C1_sync_best_effort.1 demoRemote dirtyState (by decide)
    (fun title => rfl) (fun lid t d n => rfl)

/-- C1 counterexample: a failing list-create call is fatal: the sync
pass on a dirty snapshot holding one locally created list raises
instead of completing, nothing is persisted, and the dirty flag stays
set — refuting the claim that the failure of every kind of remote call
is swallowed. -/
theorem C1_cex :
    sync_to_google failRemote c1state = EngineResult.exn c1state
  ∧ c1state.dirty = true
  ∧ c1state.stored ≠ c1state.data := by
  refine ⟨by decide, by decide, by decide⟩

end GTask

namespace GTask

section RekeyLemmas

theorem dictMem_append {α : Type} (d1 d2 : Dict α) (k : String) :
    dictMem (d1 ++ d2) k = (dictMem d1 k || dictMem d2 k) := by
  induction d1 with
  | nil => simp [dictMem]
  | cons kv rest ih =>
    obtain ⟨k1, v1⟩ := kv
    rw [List.cons_append, dictMem_cons, dictMem_cons]
    by_cases h : k1 = k
    · rw [if_pos h, if_pos h]
      rfl
    · rw [if_neg h, if_neg h, ih]

theorem nodup_append_singleton {α : Type} (l : List α) (x : α)
    (h1 : l.Nodup) (h2 : x ∉ l) : (l ++ [x]).Nodup := by
  rw [List.nodup_append]
  refine ⟨h1, List.nodup_singleton x, ?_⟩
  intro a ha hax
  rw [List.mem_singleton] at hax
  exact h2 (hax ▸ ha)

theorem tempPairs_cons (r : Remote) (l : TaskList) (rest : List TaskList) :
    tempPairs r (l :: rest) =
      if !l.deleted && strStartsWith l.id "temp_list_" then
        (l.id, serverId r l) :: tempPairs r rest
      else tempPairs r rest := by
  unfold tempPairs
  rw [tempLists_cons]
  by_cases h : (!l.deleted && strStartsWith l.id "temp_list_") = true
  · rw [if_pos h, if_pos h, List.map_cons]
  · rw [if_neg h, if_neg h]

theorem tempPairs_fst (r : Remote) (ls : List TaskList) :
    (tempPairs r ls).map Prod.fst = (tempLists ls).map TaskList.id := by
  unfold tempPairs
  rw [List.map_map]
  rfl

theorem listIdMap_eq (r : Remote) (ls : List TaskList) :
    ∀ m, (∀ l ∈ tempLists ls, dictMem m l.id = false) →
      ((tempLists ls).map TaskList.id).Nodup →
      listIdMap r m ls = m ++ tempPairs r ls := by
  induction ls with
  | nil =>
    intro m _ _
    show m = m ++ tempPairs r []
    rw [show tempPairs r [] = [] from rfl, List.append_nil]
  | cons l rest ih =>
    intro m hm hnd
    rw [listIdMap_cons, tempPairs_cons]
    by_cases hc : (!l.deleted && strStartsWith l.id "temp_list_") = true
    · rw [if_pos hc, if_pos hc]
      rw [tempLists_cons, if_pos hc] at hm hnd
      rw [List.map_cons, List.nodup_cons] at hnd
      have hmhead : dictMem m l.id = false := hm l (List.mem_cons_self _ _)
      have hset : dictSet m l.id (serverId r l) = m ++ [(l.id, serverId r l)] :=
        dictSet_append_of_not_mem _ _ _ hmhead
      have hmrest : ∀ x ∈ tempLists rest,
          dictMem (dictSet m l.id (serverId r l)) x.id = false := by
        intro x hx
        rw [hset, dictMem_append]
        have h1 : dictMem m x.id = false := hm x (List.mem_cons_of_mem _ hx)
        have h2 : dictMem [(l.id, serverId r l)] x.id = false := by
          rw [dictMem_cons, if_neg ?_]
          · rfl
          · intro he
            exact hnd.1 (he ▸ List.mem_map_of_mem TaskList.id hx)
        rw [h1, h2]
        rfl
      rw [ih (dictSet m l.id (serverId r l)) hmrest hnd.2, hset,
        List.append_assoc]
      rfl
    · rw [if_neg hc, if_neg hc]
      rw [tempLists_cons, if_neg hc] at hm hnd
      exact ih m hm hnd

theorem rekey_cons (o n : String) (rest : Dict String)
    (d : Dict (List Task)) :
    rekey ((o, n) :: rest) d =
      rekey rest (if dictMem d o then
        dictSet (dictPop d o) n (dictGetD d o []) else d) := rfl

theorem rekey_get_untouched (pairs : Dict String) :
    ∀ (d : Dict (List Task)) (k : String),
    (∀ pr ∈ pairs, pr.1 ≠ k ∧ pr.2 ≠ k) →
    dictGet (rekey pairs d) k = dictGet d k := by
  induction pairs with
  | nil => intro d k _; rfl
  | cons pr rest ih =>
    obtain ⟨o, n⟩ := pr
    intro d k hp
    rw [rekey_cons]
    have ho : o ≠ k := (hp (o, n) (List.mem_cons_self _ _)).1
    have hn : n ≠ k := (hp (o, n) (List.mem_cons_self _ _)).2
    rw [ih _ k (fun pr2 h2 => hp pr2 (List.mem_cons_of_mem _ h2))]
    by_cases hm : dictMem d o = true
    · rw [if_pos hm, dictGet_set_ne _ _ _ _ (Ne.symm hn),
        dictGet_pop_ne _ _ _ (Ne.symm ho)]
    · rw [if_neg hm]

theorem rekey_mem_untouched (pairs : Dict String) (d : Dict (List Task))
    (k : String) (hp : ∀ pr ∈ pairs, pr.1 ≠ k ∧ pr.2 ≠ k) :
    dictMem (rekey pairs d) k = dictMem d k := by
  rw [dictMem_eq_isSome, dictMem_eq_isSome, rekey_get_untouched pairs d k hp]

theorem rekey_moved (pairs : Dict String) :
    ∀ (d : Dict (List Task)) (o n : String),
    (o, n) ∈ pairs →
    (pairs.map Prod.fst).Nodup →
    (pairs.map Prod.snd).Nodup →
    (∀ pr ∈ pairs, dictMem d pr.2 = false) →
    (∀ pr ∈ pairs, pr.2 ∉ pairs.map Prod.fst) →
    (dictKeys d).Nodup →
    dictMem d o = true →
    dictGet (rekey pairs d) n = dictGet d o ∧
      dictMem (rekey pairs d) o = false := by
  induction pairs with
  | nil => intro d o n hmem; cases hmem
  | cons pr rest ih =>
    obtain ⟨o1, n1⟩ := pr
    intro d o n hmem hfst hsnd hfresh hdisj hkeys hmo
    rw [rekey_cons]
    have hn1fst : n1 ∉ ((o1, n1) :: rest).map Prod.fst :=
      hdisj (o1, n1) (List.mem_cons_self _ _)
    rw [List.map_cons, List.nodup_cons] at hfst hsnd
    rcases List.mem_cons.mp hmem with heq | htail
    · injection heq with ho1 hn1
      subst ho1
      subst hn1
      rw [if_pos hmo]
      have hunt : ∀ pr2 ∈ rest, pr2.1 ≠ n ∧ pr2.2 ≠ n := by
        intro pr2 h2
        constructor
        · intro he
          exact hn1fst (by
            rw [List.map_cons]
            exact List.mem_cons_of_mem _
              (he ▸ List.mem_map_of_mem Prod.fst h2))
        · intro he
          apply hsnd.1
          rw [← he]
          exact List.mem_map.mpr ⟨pr2, h2, rfl⟩
      have hunt2 : ∀ pr2 ∈ rest, pr2.1 ≠ o ∧ pr2.2 ≠ o := by
        intro pr2 h2
        constructor
        · intro he
          apply hfst.1
          rw [← he]
          exact List.mem_map.mpr ⟨pr2, h2, rfl⟩
        · intro he
          exact hdisj pr2 (List.mem_cons_of_mem _ h2)
            (by rw [List.map_cons, he]; exact List.mem_cons_self _ _)
      have hon : o ≠ n := fun he =>
        hn1fst (by rw [List.map_cons, ← he]; exact List.mem_cons_self _ _)
      constructor
      · rw [rekey_get_untouched rest _ n hunt, dictGet_set_self,
          dictGet_of_mem d o [] hmo]
      · rw [rekey_mem_untouched rest _ o hunt2,
          dictMem_set_ne _ _ _ _ hon, dictMem_pop_self d o hkeys]
    · have hofst : o ∈ rest.map Prod.fst := List.mem_map_of_mem Prod.fst htail
      have ho1o : o1 ≠ o := fun he => hfst.1 (he ▸ hofst)
      have hno1 : n1 ≠ o := fun he =>
        hn1fst (by
          rw [List.map_cons]
          exact List.mem_cons_of_mem _ (he ▸ hofst))
      have hdisj2 : ∀ pr2 ∈ rest, pr2.2 ∉ rest.map Prod.fst := by
        intro pr2 h2 hmem2
        exact hdisj pr2 (List.mem_cons_of_mem _ h2)
          (by rw [List.map_cons]; exact List.mem_cons_of_mem _ hmem2)
      have hfreshrest : ∀ pr2 ∈ rest, dictMem d pr2.2 = false :=
        fun pr2 h2 => hfresh pr2 (List.mem_cons_of_mem _ h2)
      by_cases hm1 : dictMem d o1 = true
      · rw [if_pos hm1]
        have hn1o1 : n1 ≠ o1 := fun he =>
          hn1fst (by rw [List.map_cons, he]; exact List.mem_cons_self _ _)
        have hn1fresh : dictMem (dictPop d o1) n1 = false := by
          rw [dictMem_pop_ne _ _ _ hn1o1]
          exact hfresh (o1, n1) (List.mem_cons_self _ _)
        have hmo2 : dictMem (dictSet (dictPop d o1) n1 (dictGetD d o1 [])) o
            = true := by
          rw [dictMem_set_ne _ _ _ _ (Ne.symm hno1),
            dictMem_pop_ne _ _ _ (Ne.symm ho1o)]
          exact hmo
        have hget2 : dictGet (dictSet (dictPop d o1) n1 (dictGetD d o1 [])) o
            = dictGet d o := by
          rw [dictGet_set_ne _ _ _ _ (Ne.symm hno1),
            dictGet_pop_ne _ _ _ (Ne.symm ho1o)]
        have hfresh2 : ∀ pr2 ∈ rest,
            dictMem (dictSet (dictPop d o1) n1 (dictGetD d o1 [])) pr2.2
              = false := by
          intro pr2 h2
          have hne_n1 : pr2.2 ≠ n1 := by
            intro he
            apply hsnd.1
            rw [← he]
            exact List.mem_map.mpr ⟨pr2, h2, rfl⟩
          have hne_o1 : pr2.2 ≠ o1 := fun he =>
            hdisj pr2 (List.mem_cons_of_mem _ h2)
              (by rw [List.map_cons, he]; exact List.mem_cons_self _ _)
          rw [dictMem_set_ne _ _ _ _ hne_n1, dictMem_pop_ne _ _ _ hne_o1]
          exact hfreshrest pr2 h2
        have hkeys2 :
            (dictKeys (dictSet (dictPop d o1) n1 (dictGetD d o1 []))).Nodup := by
          rw [dictKeys_set_of_not_mem _ _ _ hn1fresh]
          refine nodup_append_singleton _ _ ?_ ?_
          · exact (dictKeys_pop_sublist d o1).nodup hkeys
          · intro hx
            rw [← dictMem_iff_mem_keys] at hx
            rw [hn1fresh] at hx
            cases hx
        obtain ⟨ih1, ih2⟩ := ih (dictSet (dictPop d o1) n1 (dictGetD d o1 []))
          o n htail hfst.2 hsnd.2 hfresh2 hdisj2 hkeys2 hmo2
        exact ⟨by rw [ih1, hget2], ih2⟩
      · rw [if_neg hm1]
        exact ih d o n htail hfst.2 hsnd.2 hfreshrest hdisj2 hkeys hmo

end RekeyLemmas

end GTask

namespace GTask

/-- C3 (amended): take a dirty snapshot holding a locally created list
(provisional id, not tombstoned) whose bucket was filled in the same
dirty window (every task under it has a provisional task id), and a
remote on which every call made succeeds and assigns fresh
non-provisional identifiers.  After one sync pass the list record is
replaced by the server record, the bucket is re-keyed from the
provisional list id (gone) to the server id, and every task in it was
replaced through the create step — so every NON-TOMBSTONED task or
list carries a non-provisional identifier.  A task created and then
deleted in the same window keeps its provisional identifier forever
(pass 4 does nothing for a tombstone with a provisional id); the
counterexample shows this, which is why the claim is restricted to
non-tombstoned records.  The Nodup premises state that provisional
identifiers are unique (spec section 3) and that a Python dict has no
duplicate keys. -/
theorem C3_provisional_migration (r : Remote) (s : State) (tl : TaskList)
    (hdirty : s.dirty = true)
    (hmemL : tl ∈ s.data.task_lists)
    (htemp : strStartsWith tl.id "temp_list_" = true)
    (hnotdel : tl.deleted = false)
    (hbucket : dictMem s.data.tasks tl.id = true)
    (hwindow : ∀ t ∈ dictGetD s.data.tasks tl.id [],
      strStartsWith t.id "temp_" = true)
    (hkeysND : (dictKeys s.data.tasks).Nodup)
    (holdND : ((tempLists s.data.task_lists).map TaskList.id).Nodup)
    (hnewND : ((tempPairs r s.data.task_lists).map Prod.snd).Nodup)
    (hIL : ∀ l ∈ tempLists s.data.task_lists,
      (r.insertList l.title).isSome = true ∧
      strStartsWith (serverId r l) "temp_list_" = false ∧
      dictMem s.data.tasks (serverId r l) = false)
    (hIT : ∀ lid ti du no, ∃ nt, r.insertTask lid ti du no = some nt ∧
      strStartsWith nt.id "temp_" = false) :
    (sync_to_google r s).isOk = true
  ∧ listIdIn ((sync_to_google r s).state).data.task_lists
      (serverId r tl) = true
  ∧ (∀ l2 ∈ ((sync_to_google r s).state).data.task_lists,
      l2.deleted = false → strStartsWith l2.id "temp_list_" = false)
  ∧ dictMem ((sync_to_google r s).state).data.tasks tl.id = false
  ∧ dictGet ((sync_to_google r s).state).data.tasks (serverId r tl) =
      some ((dictGetD s.data.tasks tl.id []).map
        (taskStep r (serverId r tl)))
  ∧ (∀ t2 ∈ (dictGetD s.data.tasks tl.id []).map
        (taskStep r (serverId r tl)),
      t2.deleted = false → strStartsWith t2.id "temp_" = false) := by
  have htlmem : tl ∈ tempLists s.data.task_lists :=
    List.mem_filter.mpr ⟨hmemL, by simp [hnotdel, htemp]⟩
  have hILs : ∀ l ∈ s.data.task_lists, l.deleted = false →
      strStartsWith l.id "temp_list_" = true →
      (r.insertList l.title).isSome = true := by
    intro l hl hd2 ht2
    exact (hIL l (List.mem_filter.mpr ⟨hl, by simp [hd2, ht2]⟩)).1
  have hITsome : ∀ lid ti du no, (r.insertTask lid ti du no).isSome = true := by
    intro lid ti du no
    obtain ⟨nt, hnt, _⟩ := hIT lid ti du no
    rw [hnt]
    rfl
  have hm2 : listIdMap r [] s.data.task_lists =
      tempPairs r s.data.task_lists := by
    rw [listIdMap_eq r s.data.task_lists [] (fun l _ => rfl) holdND,
      List.nil_append]
  have hls := syncLists_ok r s.data.task_lists hILs []
  rw [hm2] at hls
  have hsb := syncBuckets_ok r hITsome
    (rekey (tempPairs r s.data.task_lists) s.data.tasks)
  have hrun : sync_to_google r s =
      .ok (save_local_data
        { s with data :=
            { task_lists := s.data.task_lists.map (replaceL r),
              tasks := syncedBuckets r
                (rekey (tempPairs r s.data.task_lists) s.data.tasks) } }) := by
    unfold sync_to_google
    rw [if_neg (by simp [hdirty]), hls]
    dsimp only
    rw [hsb]
  have hpair : (tl.id, serverId r tl) ∈ tempPairs r s.data.task_lists :=
    List.mem_map.mpr ⟨tl, htlmem, rfl⟩
  have hP1 : ((tempPairs r s.data.task_lists).map Prod.fst).Nodup := by
    rw [tempPairs_fst]
    exact holdND
  have hP3 : ∀ pr ∈ tempPairs r s.data.task_lists,
      dictMem s.data.tasks pr.2 = false := by
    intro pr hpr
    obtain ⟨l, hlmem, hleq⟩ := List.mem_map.mp hpr
    have hsnd2 : pr.2 = serverId r l := by rw [← hleq]
    rw [hsnd2]
    exact (hIL l hlmem).2.2
  have hP4 : ∀ pr ∈ tempPairs r s.data.task_lists,
      pr.2 ∉ (tempPairs r s.data.task_lists).map Prod.fst := by
    intro pr hpr hmem2
    obtain ⟨l, hlmem, hleq⟩ := List.mem_map.mp hpr
    have hsnd2 : pr.2 = serverId r l := by rw [← hleq]
    have h1 : strStartsWith pr.2 "temp_list_" = false := by
      rw [hsnd2]
      exact (hIL l hlmem).2.1
    rw [tempPairs_fst] at hmem2
    obtain ⟨l2, hl2mem, hl2eq⟩ := List.mem_map.mp hmem2
    have h2 : strStartsWith pr.2 "temp_list_" = true := by
      rw [← hl2eq]
      exact (Bool.and_eq_true_iff.mp (List.mem_filter.mp hl2mem).2).2
    rw [h1] at h2
    cases h2
  have hre := rekey_moved (tempPairs r s.data.task_lists) s.data.tasks
    tl.id (serverId r tl) hpair hP1 hnewND hP3 hP4 hkeysND hbucket
  have hntemp : strStartsWith (serverId r tl) "temp_list_" = false :=
    (hIL tl htlmem).2.1
  refine ⟨?_, ?_, ?_, ?_, ?_, ?_⟩
  · rw [hrun]
    rfl
  · rw [hrun]
    simp only [EngineResult.state, save_local_data]
    obtain ⟨nl, hnl⟩ := Option.isSome_iff_exists.mp (hIL tl htlmem).1
    have hrpl : replaceL r tl = nl := by
      unfold replaceL
      rw [if_neg (by simp [hnotdel]), if_pos htemp, hnl]
    have hsid : serverId r tl = nl.id := by
      unfold serverId
      rw [hnl]
    unfold listIdIn
    refine List.any_eq_true.mpr ⟨nl, List.mem_map.mpr ⟨tl, hmemL, hrpl⟩, ?_⟩
    rw [hsid]
    exact beq_self_eq_true _
  · rw [hrun]
    simp only [EngineResult.state, save_local_data]
    intro l2 h2 hnd2
    obtain ⟨l, hl, hleq⟩ := List.mem_map.mp h2
    subst hleq
    by_cases hdl : l.deleted = true
    · have hrl2 : replaceL r l = l := by
        unfold replaceL
        rw [if_pos hdl]
      rw [hrl2] at hnd2
      rw [hdl] at hnd2
      cases hnd2
    · rw [Bool.not_eq_true] at hdl
      by_cases hts : strStartsWith l.id "temp_list_" = true
      · have hlm : l ∈ tempLists s.data.task_lists :=
          List.mem_filter.mpr ⟨hl, by simp [hdl, hts]⟩
        obtain ⟨nl2, hnl2⟩ := Option.isSome_iff_exists.mp (hIL l hlm).1
        have hr2 : replaceL r l = nl2 := by
          unfold replaceL
          rw [if_neg (by simp [hdl]), if_pos hts, hnl2]
        have hsid2 : serverId r l = nl2.id := by
          unfold serverId
          rw [hnl2]
        rw [hr2]
        have h3 := (hIL l hlm).2.1
        rw [hsid2] at h3
        exact h3
      · have hr2 : replaceL r l = l := by
          unfold replaceL
          rw [if_neg (by simp [hdl]), if_neg hts]
        rw [hr2]
        rw [Bool.not_eq_true] at hts
        exact hts
  · rw [hrun]
    simp only [EngineResult.state, save_local_data]
    rw [syncedBuckets_mem]
    exact hre.2
  · rw [hrun]
    simp only [EngineResult.state, save_local_data]
    rw [syncedBuckets_get, hre.1, dictGet_of_mem s.data.tasks tl.id [] hbucket]
    simp only [Option.map_some']
    rw [if_neg (by simp [hntemp])]
  · intro t2 h2 hnd2
    obtain ⟨t, ht, hteq⟩ := List.mem_map.mp h2
    subst hteq
    by_cases hdt : t.deleted = true
    · have hstep : taskStep r (serverId r tl) t = t := by
        unfold taskStep
        rw [if_pos hdt]
      rw [hstep] at hnd2
      rw [hdt] at hnd2
      cases hnd2
    · rw [Bool.not_eq_true] at hdt
      have htemp2 : strStartsWith t.id "temp_" = true := hwindow t ht
      obtain ⟨nt, hnt, hntid⟩ := hIT (serverId r tl) t.title t.due t.notes
      have hstep : taskStep r (serverId r tl) t = nt := by
        unfold taskStep
        rw [if_neg (by simp [hdt]), if_pos htemp2, hnt]
      rw [hstep]
      exact hntid

end GTask

namespace GTask

/-- C3 counterexample: create list Work and task Ship in one dirty
window, delete Ship (tombstone), sync with every remote call made
succeeding.  The sync completes, the bucket is re-keyed to the server
list id, yet the tombstoned task still carries its provisional id
temp_1 — so it is not true that no task under the list retains a
provisional identifier after one successful sync. -/
theorem C3_cex :
    (sync_to_google demoRemote c3state).isOk = true
  ∧ findTask "temp_1"
      (dictGetD ((sync_to_google demoRemote c3state).state).data.tasks
        "srvlist_Work" []) = some shipTomb
  ∧ strStartsWith "temp_1" "temp_" = true
  ∧ shipTomb.deleted = true := by
  refine ⟨by decide, by decide, by decide, by decide⟩

/-- C3 witness: the amended migration closure at a concrete snapshot
holding the Work list and the live Ship task. -/
theorem C3_wit :
    (sync_to_google demoRemote c3wstate).isOk = true
  ∧ listIdIn ((sync_to_google demoRemote c3wstate).state).data.task_lists
      (serverId demoRemote { id := "temp_list_1", title := "Work" }) = true
  ∧ (∀ l2 ∈ ((sync_to_google demoRemote c3wstate).state).data.task_lists,
      l2.deleted = false → strStartsWith l2.id "temp_list_" = false)
  ∧ dictMem ((sync_to_google demoRemote c3wstate).state).data.tasks
      "temp_list_1" = false
  ∧ dictGet ((sync_to_google demoRemote c3wstate).state).data.tasks
      (serverId demoRemote { id := "temp_list_1", title := "Work" }) =
      some ((dictGetD c3wstate.data.tasks "temp_list_1" []).map
        (taskStep demoRemote
          (serverId demoRemote { id := "temp_list_1", title := "Work" })))
  ∧ (∀ t2 ∈ (dictGetD c3wstate.data.tasks "temp_list_1" []).map
        (taskStep demoRemote
          (serverId demoRemote { id := "temp_list_1", title := "Work" })),
      t2.deleted = false → strStartsWith t2.id "temp_" = false) :=
  C3_provisional_migration demoRemote c3wstate
    { id := "temp_list_1", title := "Work" }
    (by decide) (by decide) (by decide) (by decide) (by decide) (by decide)
    (by decide) (by decide) (by decide) (by decide)
    (fun lid ti du no =>
      ⟨{ id := "SRVTASK1", title := ti, status := "needsAction",
         due := du, notes := no }, rfl, rfl⟩)

end GTask
